import Mathlib

/-!
# birdbrain: server-side sessions over a key-value store

A shallow embedding of `birdbrain.go` (the `Session` type and its operations)
and of the store contract of `store/redis.go`, followed by theorems about
the session lifecycle.

Go strings are Lean strings, `os.Error` is `Option String` (`none` for `nil`),
`int64` values are integers with explicit wrap-around where the code adds
them, and every operation passes the store and the request context
explicitly. The token and every store entry carry the seconds they have left
to live; the time that passes between two calls is a step of its own
(`World.elapse`), which removes what has lapsed.
-/

namespace Birdbrain

/-! ## int64 -/

/-- Smallest int64. -/
def minInt64 : Int := -9223372036854775808

/-- Largest int64. -/
def maxInt64 : Int := 9223372036854775807

/-- Two's-complement wrap-around of an integer into the int64 range, the
result of Go's `+` on int64 operands. -/
def wrap64 (x : Int) : Int := (x + 9223372036854775808) % 18446744073709551616 - 9223372036854775808

/-! ## strconv -/

/-- The character of a decimal digit. -/
def digitChar (d : Nat) : Char := Char.ofNat (48 + d)

/-- Decimal digits of `n`, most significant first, pushed in front of `acc`;
`fuel` bounds the number of digits. -/
def natDigits : Nat → Nat → List Char → List Char
  | 0, _, acc => acc
  | fuel + 1, n, acc =>
    if n / 10 = 0 then digitChar (n % 10) :: acc
    else natDigits fuel (n / 10) (digitChar (n % 10) :: acc)

/-- Decimal rendering of a natural number. -/
def natToDec (n : Nat) : List Char := natDigits (n + 1) n []

/-- The function `strconv.Itoa64`: decimal rendering of an int64, with a
leading minus sign for negative values. -/
def Itoa64 (i : Int) : String :=
  if i < 0 then String.mk ('-' :: natToDec (-i).toNat) else String.mk (natToDec i.toNat)

/-- Value of a digit string read left to right from accumulator `acc`;
`none` when a character is not a decimal digit. -/
def parseDigits : List Char → Nat → Option Nat
  | [], acc => some acc
  | c :: cs, acc =>
    if 48 ≤ c.toNat ∧ c.toNat ≤ 57 then parseDigits cs (10 * acc + (c.toNat - 48)) else none

/-- The unsigned decimal parser behind `strconv.Atoi64`: the empty string
is invalid. -/
def parseUnsigned : List Char → Option Nat
  | [] => none
  | c :: cs => parseDigits (c :: cs) 0

/-- The function `strconv.Atoi64`: an optional sign followed by one or more
decimal digits, rejected when the value does not fit an int64. `none`
stands for a non-nil error. -/
def Atoi64 (s : String) : Option Int :=
  match s.data with
  | [] => none
  | c :: cs =>
    if c = '+' then
      match parseUnsigned cs with
      | none => none
      | some un => if un ≥ 9223372036854775808 then none else some (Int.ofNat un)
    else if c = '-' then
      match parseUnsigned cs with
      | none => none
      | some un => if un > 9223372036854775808 then none else some (-(Int.ofNat un))
    else
      match parseUnsigned (c :: cs) with
      | none => none
      | some un => if un ≥ 9223372036854775808 then none else some (Int.ofNat un)

/-! ## strings -/

/-- The function `strings.Join`. -/
def Join (vals : List String) (sep : String) : String := sep.intercalate vals

/-- Splitting a character list at every occurrence of `sep`; the empty list
gives one empty piece. -/
def splitChars (sep : Char) : List Char → List (List Char)
  | [] => [[]]
  | c :: cs =>
    if c = sep then [] :: splitChars sep cs
    else
      match splitChars sep cs with
      | [] => [[c]]
      | piece :: rest => (c :: piece) :: rest

/-- The function `strings.Split` for a one-character separator. -/
def Split (s : String) (sep : Char) : List String := (splitChars sep s.data).map String.mk

/-! ## time -/

/-- A reading of the system clock: the int64 count of nanoseconds since the
epoch that `time.Nanoseconds` returns. `time.Seconds` reads the same clock in
whole seconds. -/
structure Clock where
  nanos : Int
  lo : minInt64 ≤ nanos
  hi : nanos ≤ maxInt64

/-- The function `time.Nanoseconds`. -/
def Clock.Nanoseconds (now : Clock) : Int := now.nanos

/-- The function `time.Seconds`. -/
def Clock.Seconds (now : Clock) : Int := now.nanos / 1000000000

/-! ## The request context (token accessor) -/

/-- Modelled from the spec: the request context of the web framework, which
is not part of these sources. It exposes a signed, expiring token by name:
reading returns the last value written, and writing with a negative or zero
lifetime deletes the token immediately. `lifetime` is the number of seconds
a token has left before it lapses: a write sets it and the passage of time
(`Context.elapse`) uses it up. `written` logs every write with the lifetime
that was passed. -/
structure Context where
  cookies : String → Option String
  lifetime : String → Int
  written : List (String × String × Int)

/-- Reading a token: `none` stands for `ok == false`. -/
def Context.GetSecureCookie (ctx : Context) (name : String) : Option String := ctx.cookies name

/-- Writing a token with a lifetime in seconds. -/
def Context.SetSecureCookie (ctx : Context) (name val : String) (age : Int) : Context :=
  { cookies := fun n => if n = name then (if age ≤ 0 then none else some val) else ctx.cookies n
    lifetime := fun n => if n = name then age else ctx.lifetime n
    written := ctx.written ++ [(name, val, age)] }

/-- Passage of `d` seconds for the tokens: a token whose lifetime has run
out is gone, the others have `d` seconds less to live. -/
def Context.elapse (ctx : Context) (d : Int) : Context :=
  { cookies := fun n => if ctx.lifetime n ≤ d then none else ctx.cookies n
    lifetime := fun n => ctx.lifetime n - d
    written := ctx.written }

/-! ## The store -/

/-- The interface `SessionStore`, over a store state `σ`. Every method
returns the store state it leaves behind; an error is `some message`. -/
structure SessionStore (σ : Type) where
  Set : σ → String → String → Int → σ × Option String
  Get : σ → String → σ × (String × Option String)
  Delete : σ → List String → σ

/-- Modelled from the spec: the key-value client behind `RedisStore`, which
is not part of these sources. A store state maps a key to its value and the
number of seconds the entry has left before it expires: a write sets it to
the expiry passed and the passage of time (`Client.elapse`) uses it up. -/
abbrev Client := String → Option (String × Int)

/-- The error a store reports for an absent key. -/
def ErrNotFound : String := "key not found"

/-- Set-with-expiry: overwrites any prior value and its expiry. -/
def Client.Setex (c : Client) (key : String) (exp : Int) (val : String) : Client × Option String :=
  (fun k => if k = key then some (val, exp) else c k, none)

/-- Get: the current value, or a not-found error for a key that is absent or
has expired (`Client.elapse` removes an entry when its time has run out). -/
def Client.Get (c : Client) (key : String) : String × Option String :=
  match c key with
  | some entry => (entry.1, none)
  | none => ("", some ErrNotFound)

/-- Delete-many: absent keys are not an error. -/
def Client.Del (c : Client) (keys : List String) : Client :=
  fun k => if k ∈ keys then none else c k

/-- Passage of `d` seconds for the store: an entry whose time has run out is
removed, the others have `d` seconds less to live. -/
def Client.elapse (c : Client) (d : Int) : Client :=
  fun k =>
    match c k with
    | some entry => if entry.2 ≤ d then none else some (entry.1, entry.2 - d)
    | none => none

/-- The type `RedisStore` of `store/redis.go`: every method delegates to the
client. -/
def RedisStore : SessionStore Client where
  Set c key val exp := c.Setex key exp val
  Get c key := (c, c.Get key)
  Delete c keys := c.Del keys

/-! ## Session -/

/-- The state a `Session` works on: the store behind its `store` field and
the request context behind its `ctx` field. -/
structure World (σ : Type) where
  store : σ
  ctx : Context

/-- The configuration fields of `Session`. -/
structure Session where
  timeout : Int
  expiration : Int

/-- The function `createKey`. -/
def createKey (vals : List String) : String := Join vals ":"

/-- The function `NewSession`: a timeout of one hour and an expiration of one
day. -/
def NewSession : Session := { timeout := 60 * 60, expiration := 60 * 60 * 24 }

namespace Session

variable {σ : Type}

/-- The method `generateSessionID`. -/
def generateSessionID (now : Clock) : String × Bool := (Itoa64 now.Nanoseconds, true)

/-- The method `getSessionID`. -/
def getSessionID (w : World σ) : Option String := w.ctx.GetSecureCookie "GOSESSIONID"

/-- The method `setSessionID`. -/
def setSessionID (s : Session) (S : SessionStore σ) (now : Clock) (id : String) (w : World σ) :
    World σ :=
  let ctx := w.ctx.SetSecureCookie "GOSESSIONID" id s.expiration
  let creationTime := Itoa64 now.Seconds
  let st1 := (S.Set w.store (createKey ["session", id]) creationTime s.expiration).1
  let st2 := (S.Set st1 (createKey ["session", id, "last"]) creationTime s.expiration).1
  { store := st2, ctx := ctx }

/-- The method `removeSessionID`. -/
def removeSessionID (S : SessionStore σ) (w : World σ) : World σ :=
  match getSessionID w with
  | none => w
  | some id =>
    let keys := [createKey ["session", id], createKey ["session", id, "last"]]
    { store := S.Delete w.store keys, ctx := w.ctx.SetSecureCookie "GOSESSIONID" "" (-1) }

/-- The method `updateLastActivityTime`. -/
def updateLastActivityTime (s : Session) (S : SessionStore σ) (now : Clock) (w : World σ) :
    World σ :=
  match getSessionID w with
  | none => w
  | some id =>
    { w with store := (S.Set w.store (createKey ["session", id, "last"]) (Itoa64 now.Seconds)
        s.expiration).1 }

/-- The method `isTimedOut`, with the store state its read leaves behind. -/
def isTimedOut (s : Session) (S : SessionStore σ) (now : Clock) (w : World σ) : World σ × Bool :=
  match getSessionID w with
  | none => (w, true)
  | some id =>
    let r := S.Get w.store (createKey ["session", id, "last"])
    let w1 : World σ := { w with store := r.1 }
    match r.2.2 with
    | some _ => (w1, true)
    | none =>
      match Atoi64 r.2.1 with
      | none => (w1, true)
      | some lastActivityTime =>
        if wrap64 (lastActivityTime + s.timeout) < now.Seconds then (w1, true) else (w1, false)

/-- The method `getStoredKeys`, with the store state its read leaves behind. -/
def getStoredKeys (S : SessionStore σ) (w : World σ) : World σ × List String :=
  match getSessionID w with
  | none => (w, [])
  | some id =>
    let r := S.Get w.store (createKey ["session", id, "keys"])
    let w1 : World σ := { w with store := r.1 }
    match r.2.2 with
    | some _ => (w1, [])
    | none => (w1, Split r.2.1 ':')

/-- The method `updateStoredKeys`. -/
def updateStoredKeys (s : Session) (S : SessionStore σ) (newKey : String) (w : World σ) :
    World σ :=
  match getSessionID w with
  | none => w
  | some id =>
    let key := createKey ["session", id, "keys"]
    let r := S.Get w.store key
    match r.2.2 with
    | some _ => { w with store := (S.Set r.1 key newKey s.expiration).1 }
    | none => { w with store := (S.Set r.1 key (r.2.1 ++ ":" ++ newKey) s.expiration).1 }

/-- The first half of the method `Set` (the if/else chain): the state it
leaves and the identifier the call goes on with, `none` when identifier
generation reports failure. -/
def resolveSessionID (s : Session) (S : SessionStore σ) (now : Clock) (w : World σ) :
    World σ × Option String :=
  match getSessionID w with
  | none =>
    let g := generateSessionID now
    if !g.2 then (w, none) else (s.setSessionID S now g.1 w, some g.1)
  | some id =>
    let t := s.isTimedOut S now w
    if t.2 then
      let w1 := removeSessionID S t.1
      let g := generateSessionID now
      if !g.2 then (w1, none) else (s.setSessionID S now g.1 w1, some g.1)
    else (t.1, some id)

/-- The method `Set`. -/
def Set (s : Session) (S : SessionStore σ) (now : Clock) (key val : String) (w : World σ) :
    World σ × Bool :=
  let r := s.resolveSessionID S now w
  match r.2 with
  | none => (r.1, false)
  | some id =>
    let sessionKey := createKey ["session", id, "key", key]
    let w1 : World σ := { r.1 with store := (S.Set r.1.store sessionKey val s.expiration).1 }
    let w2 := s.updateLastActivityTime S now w1
    let w3 := s.updateStoredKeys S key w2
    (w3, true)

/-- The method `Get`: the value and the error it returns, with the state it
leaves. -/
def Get (s : Session) (S : SessionStore σ) (now : Clock) (key : String) (w : World σ) :
    World σ × (String × Option String) :=
  match getSessionID w with
  | none => (w, ("", some "Failed to find session ID"))
  | some id =>
    let t := s.isTimedOut S now w
    if t.2 then (t.1, ("", some "Session has timed out"))
    else
      let w1 := s.updateLastActivityTime S now t.1
      let r := S.Get w1.store (createKey ["session", id, "key", key])
      ({ w1 with store := r.1 }, r.2)

/-- The method `Delete`. -/
def Delete (s : Session) (S : SessionStore σ) (now : Clock) (keys : List String) (w : World σ) :
    World σ :=
  match getSessionID w with
  | none => w
  | some id =>
    let t := s.isTimedOut S now w
    let w1 := if !t.2 then s.updateLastActivityTime S now t.1 else t.1
    let sessionKeys := keys.map (fun key => createKey ["session", id, "key", key])
    { w1 with store := S.Delete w1.store sessionKeys }

/-- The method `Clear`. -/
def Clear (s : Session) (S : SessionStore σ) (now : Clock) (w : World σ) : World σ :=
  let k := getStoredKeys S w
  s.Delete S now k.2 k.1

end Session

/-! ## Sample states -/

/-- A store with no entries. -/
def emptyClient : Client := fun _ => none

/-- A request context with no token. -/
def emptyContext : Context :=
  { cookies := fun _ => none, lifetime := fun _ => 0, written := [] }

/-- The state of a first request against an empty store. -/
def freshWorld : World Client := { store := emptyClient, ctx := emptyContext }

/-- A clock reading of `n` whole seconds (taken modulo 9000000000, so that
the nanosecond count fits an int64). -/
def clockAt (n : Nat) : Clock :=
  { nanos := ((n % 9000000000 : Nat) : Int) * 1000000000
    lo := by unfold minInt64; omega
    hi := by unfold maxInt64; omega }

/-- A store whose `Set` and `Get` return an error on every call and which
keeps nothing. -/
def failingStore : SessionStore Unit where
  Set _ _ _ _ := ((), some "store unavailable")
  Get _ _ := ((), ("", some "store unavailable"))
  Delete _ _ := ()

/-- A call received by a store. -/
inductive StoreCall where
  | set (key val : String) (exp : Int)
  | get (key : String)
  | delete (keys : List String)
  deriving DecidableEq

/-- The store of `RedisStore` together with a log of every call it
receives, oldest first. -/
def recordingStore : SessionStore (Client × List StoreCall) where
  Set c key val exp := (((c.1.Setex key exp val).1, c.2 ++ [StoreCall.set key val exp]), none)
  Get c key := ((c.1, c.2 ++ [StoreCall.get key]), c.1.Get key)
  Delete c keys := (c.1.Del keys, c.2 ++ [StoreCall.delete keys])

/-- Timeout detection as the specification words it, over the store of
`RedisStore`: no token, no last-activity entry, an entry that does not parse,
or `lastActivity + timeout < now` with the exact integer sum. -/
def timedOutExact (s : Session) (now : Clock) (w : World Client) : Bool :=
  match Session.getSessionID w with
  | none => true
  | some id =>
    match w.store (createKey ["session", id, "last"]) with
    | none => true
    | some entry =>
      match Atoi64 entry.1 with
      | none => true
      | some lastActivity => decide (lastActivity + s.timeout < now.Seconds)

/-- A state whose token names session `id` and whose store holds the given
last-activity entry for it and nothing else. -/
def worldWithLast (id last : String) : World Client :=
  { store := fun k => if k = createKey ["session", id, "last"] then some (last, 86400) else none
    ctx := { cookies := fun n => if n = "GOSESSIONID" then some id else none
             lifetime := fun n => if n = "GOSESSIONID" then 86400 else 0
             written := [] } }

/-- A call of `Get` or of `Set`. -/
inductive Call where
  | get (key : String)
  | set (key val : String)

/-- The state a call leaves. -/
def Session.run {σ : Type} (s : Session) (S : SessionStore σ) (now : Clock) (c : Call)
    (w : World σ) : World σ :=
  match c with
  | Call.get key => (s.Get S now key w).1
  | Call.set key val => (s.Set S now key val w).1

/-- Every call of a timed sequence comes no more than the timeout, in
seconds of the clock, after the call before it; `prev` is the clock reading
of the call before the first. -/
def Session.withinTimeout (s : Session) : Clock → List (Clock × Call) → Bool
  | _, [] => true
  | prev, (now, _) :: rest =>
    decide (now.Seconds ≤ prev.Seconds + s.timeout) && Session.withinTimeout s now rest

/-- Thirty `Get` calls, one every full timeout, starting one timeout after
second 10: the last comes 108000 seconds after the start. -/
def hourlyGets : List (Clock × Call) :=
  (List.range 30).map (fun i => (clockAt (10 + 3600 * (i + 1)), Call.get "cart"))

/-- The state of a request that carries the token `id`, over store `st`. -/
def requestOf (id : String) (st : Client) : World Client :=
  { store := st
    ctx := { cookies := fun n => if n = "GOSESSIONID" then some id else none
             lifetime := fun n => if n = "GOSESSIONID" then 86400 else 0
             written := [] } }

/-- A first request (no token) against a store that holds one value entry
of session "2", under the key name "a:b". -/
def otherSessionWorld : World Client :=
  { store := fun k =>
      if k = createKey ["session", "2", "key", "a:b"] then some ("mine", 86400) else none
    ctx := emptyContext }

/-- Every `Set` call in a log of store calls passes the expiry `e`. -/
def ttlUniform (e : Int) (log : List StoreCall) : Prop :=
  ∀ key val exp, StoreCall.set key val exp ∈ log → exp = e

/-- A first request (no token) against an empty store that logs its calls. -/
def freshRecording : World (Client × List StoreCall) :=
  { store := (emptyClient, []), ctx := emptyContext }

/-- The state the cart session is in after its first `Set`, at second 10. -/
def cartWorld : World Client :=
  (NewSession.Set RedisStore (clockAt 10) "cart" "3 items" freshWorld).1

/-- A timed sequence of `Set` calls, each given as clock reading, key name
and value. -/
def setCalls (l : List (Clock × String × String)) : List (Clock × Call) :=
  l.map (fun x => (x.1, Call.set x.2.1 x.2.2))

/-- Passage of `d` seconds for a state over the store of `RedisStore`: the
token and the store entries age together. -/
def World.elapse (w : World Client) (d : Int) : World Client :=
  { store := w.store.elapse d, ctx := w.ctx.elapse d }

/-- The state a timed sequence of calls leaves over the store of
`RedisStore` when time passes: before each call the state ages by the
seconds between the clock reading of the call before (`prev` for the first)
and the call's own reading. -/
def Session.runTimed (s : Session) : Clock → List (Clock × Call) → World Client → World Client
  | _, [], w => w
  | prev, (now, c) :: rest, w =>
    Session.runTimed s now rest (s.run RedisStore now c (w.elapse (now.Seconds - prev.Seconds)))

/-- Every call of a timed sequence comes no earlier than the call before it
(`prev` for the first), no more than the timeout after it, and less than
`limit` seconds after the clock reading `t0`. -/
def Session.paced (s : Session) (limit : Int) (t0 : Clock) : Clock → List (Clock × Call) → Bool
  | _, [] => true
  | prev, (now, _) :: rest =>
    decide (prev.Seconds ≤ now.Seconds) && decide (now.Seconds ≤ prev.Seconds + s.timeout) &&
      decide (now.Seconds - t0.Seconds < limit) && Session.paced s limit t0 now rest

/-- Every call of a timed sequence, run with time passing as in `runTimed`,
finds session `id` active: when the call is made the token names `id` and
`isTimedOut` is false, a `Get` fails neither with the timed-out nor with the
no-session error, and a `Set` leaves `id` in the token. -/
def Session.staysActiveTimed (s : Session) (id : String) :
    Clock → List (Clock × Call) → World Client → Prop
  | _, [], _ => True
  | prev, (now, c) :: rest, w =>
    Session.getSessionID (w.elapse (now.Seconds - prev.Seconds)) = some id ∧
    (s.isTimedOut RedisStore now (w.elapse (now.Seconds - prev.Seconds))).2 = false ∧
    (match c with
      | Call.get key =>
        (s.Get RedisStore now key (w.elapse (now.Seconds - prev.Seconds))).2.2
          ≠ some "Session has timed out" ∧
        (s.Get RedisStore now key (w.elapse (now.Seconds - prev.Seconds))).2.2
          ≠ some "Failed to find session ID"
      | Call.set key val =>
        Session.getSessionID
          (s.Set RedisStore now key val (w.elapse (now.Seconds - prev.Seconds))).1 = some id) ∧
    Session.staysActiveTimed s id now rest
      (s.run RedisStore now c (w.elapse (now.Seconds - prev.Seconds)))

/-- A first request (no token) against a store that already holds a key
list under the identifier a `Set` at second 10 issues. -/
def staleKeysWorld : World Client :=
  { store := fun k => if k = "session:10000000000:keys" then some ("old", 86400) else none
    ctx := emptyContext }

/-! ## Decimal rendering and parsing -/

theorem digitChar_toNat (d : Nat) (h : d < 10) : (digitChar d).toNat = 48 + d := by
  interval_cases d <;> rfl

theorem natDigits_acc (fuel n : Nat) (acc : List Char) :
    natDigits fuel n acc = natDigits fuel n [] ++ acc := by
  induction fuel generalizing n acc with
  | zero => simp [natDigits]
  | succ f ih =>
    unfold natDigits
    split
    · simp
    · rw [ih (n / 10) (digitChar (n % 10) :: acc), ih (n / 10) [digitChar (n % 10)]]
      simp

theorem natDigits_isDigit (fuel n : Nat) (c : Char) (hc : c ∈ natDigits fuel n []) :
    48 ≤ c.toNat ∧ c.toNat ≤ 57 := by
  induction fuel generalizing n with
  | zero => simp [natDigits] at hc
  | succ f ih =>
    unfold natDigits at hc
    have hd : (digitChar (n % 10)).toNat = 48 + n % 10 := digitChar_toNat _ (Nat.mod_lt _ (by decide))
    have hlt : n % 10 < 10 := Nat.mod_lt _ (by decide)
    split at hc
    · simp at hc
      subst hc
      omega
    · rw [natDigits_acc] at hc
      simp at hc
      rcases hc with hc | hc
      · exact ih _ hc
      · subst hc
        omega

theorem natDigits_ne_nil (fuel n : Nat) : natDigits (fuel + 1) n [] ≠ [] := by
  unfold natDigits
  split
  · simp
  · rw [natDigits_acc]
    simp

theorem parseDigits_append (xs ys : List Char) (acc : Nat) :
    parseDigits (xs ++ ys) acc = (parseDigits xs acc).bind (parseDigits ys) := by
  induction xs generalizing acc with
  | nil => simp [parseDigits]
  | cons c cs ih =>
    simp only [List.cons_append, parseDigits]
    split
    · exact ih _
    · rfl

theorem parseDigits_natDigits (fuel n : Nat) (h : n < fuel) :
    parseDigits (natDigits fuel n []) 0 = some n := by
  induction fuel generalizing n with
  | zero => omega
  | succ f ih =>
    unfold natDigits
    have hd : (digitChar (n % 10)).toNat = 48 + n % 10 := digitChar_toNat _ (Nat.mod_lt _ (by decide))
    have hlt : n % 10 < 10 := Nat.mod_lt _ (by decide)
    split
    · rename_i h0
      have hcond : 48 ≤ 48 + n % 10 ∧ 48 + n % 10 ≤ 57 := by omega
      simp only [parseDigits, hd, hcond, and_self, if_true]
      congr 1
      omega
    · rename_i h0
      rw [natDigits_acc, parseDigits_append, ih (n / 10) (by omega)]
      have hcond : 48 ≤ 48 + n % 10 ∧ 48 + n % 10 ≤ 57 := by omega
      simp only [Option.some_bind, parseDigits, hd, hcond, and_self, if_true]
      congr 1
      omega

theorem parseUnsigned_natToDec (n : Nat) : parseUnsigned (natToDec n) = some n := by
  have h := parseDigits_natDigits (n + 1) n (by omega)
  unfold natToDec
  cases hx : natDigits (n + 1) n [] with
  | nil => exact absurd hx (natDigits_ne_nil n n)
  | cons c cs =>
    rw [hx] at h
    simpa [parseUnsigned] using h

theorem natToDec_head (n : Nat) :
    ∃ c cs, natToDec n = c :: cs ∧ 48 ≤ c.toNat ∧ c.toNat ≤ 57 := by
  unfold natToDec
  cases hx : natDigits (n + 1) n [] with
  | nil => exact absurd hx (natDigits_ne_nil n n)
  | cons c cs =>
    exact ⟨c, cs, rfl, natDigits_isDigit (n + 1) n c (by simp [hx])⟩

/-- Parsing the decimal rendering of an int64 gives the value back. -/
theorem Atoi64_Itoa64 (i : Int) (lo : minInt64 ≤ i) (hi : i ≤ maxInt64) :
    Atoi64 (Itoa64 i) = some i := by
  unfold minInt64 at lo
  unfold maxInt64 at hi
  unfold Itoa64
  split
  · rename_i hneg
    have hm : ('-' : Char) ≠ '+' := by decide
    simp only [Atoi64, hm, if_false, if_true, parseUnsigned_natToDec]
    have : ¬ ((-i).toNat > 9223372036854775808) := by omega
    simp only [this, if_false, Int.ofNat_eq_coe]
    congr 1
    omega
  · rename_i hnn
    obtain ⟨c, cs, hcs, h1, h2⟩ := natToDec_head i.toNat
    have hp := parseUnsigned_natToDec i.toNat
    rw [hcs] at hp
    have hplus : c ≠ '+' := by
      intro h
      subst h
      revert h1
      decide
    have hminus : c ≠ '-' := by
      intro h
      subst h
      revert h1
      decide
    simp only [Atoi64, hcs, hplus, hminus, if_false, hp]
    have : ¬ (i.toNat ≥ 9223372036854775808) := by omega
    simp only [this, if_false, Int.ofNat_eq_coe]
    congr 1
    omega

/-- The decimal rendering of an integer contains no colon. -/
theorem Itoa64_no_colon (i : Int) : ':' ∉ (Itoa64 i).data := by
  have key : ∀ n, ':' ∉ natToDec n := by
    intro n hmem
    have := natDigits_isDigit (n + 1) n ':' hmem
    revert this
    decide
  unfold Itoa64
  split
  · simp only [List.mem_cons, not_or]
    exact ⟨by decide, key _⟩
  · exact key _

/-! ## Store keys -/

theorem createKey_creation_data (id : String) :
    (createKey ["session", id]).data
      = 's' :: 'e' :: 's' :: 's' :: 'i' :: 'o' :: 'n' :: ':' :: id.data := by
  simp [createKey, Join, String.intercalate, String.intercalate.go, String.data_append]

theorem createKey_last_data (id : String) :
    (createKey ["session", id, "last"]).data
      = 's' :: 'e' :: 's' :: 's' :: 'i' :: 'o' :: 'n' :: ':' ::
          (id.data ++ [':', 'l', 'a', 's', 't']) := by
  simp [createKey, Join, String.intercalate, String.intercalate.go, String.data_append]

theorem createKey_keys_data (id : String) :
    (createKey ["session", id, "keys"]).data
      = 's' :: 'e' :: 's' :: 's' :: 'i' :: 'o' :: 'n' :: ':' ::
          (id.data ++ [':', 'k', 'e', 'y', 's']) := by
  simp [createKey, Join, String.intercalate, String.intercalate.go, String.data_append]

theorem createKey_value_data (id k : String) :
    (createKey ["session", id, "key", k]).data
      = 's' :: 'e' :: 's' :: 's' :: 'i' :: 'o' :: 'n' :: ':' ::
          (id.data ++ ':' :: 'k' :: 'e' :: 'y' :: ':' :: k.data) := by
  simp [createKey, Join, String.intercalate, String.intercalate.go, String.data_append]

theorem last_ne_value (id k : String) :
    createKey ["session", id, "last"] ≠ createKey ["session", id, "key", k] := by
  intro h
  have := congrArg String.data h
  simp [createKey_last_data, createKey_value_data] at this

theorem keys_ne_value (id k : String) :
    createKey ["session", id, "keys"] ≠ createKey ["session", id, "key", k] := by
  intro h
  have := congrArg String.data h
  simp [createKey_keys_data, createKey_value_data] at this

theorem creation_ne_value (id k : String) :
    createKey ["session", id] ≠ createKey ["session", id, "key", k] := by
  intro h
  have := congrArg String.data h
  simp [createKey_creation_data, createKey_value_data] at this

theorem creation_ne_last (id : String) :
    createKey ["session", id] ≠ createKey ["session", id, "last"] := by
  intro h
  have := congrArg String.data h
  simp [createKey_creation_data, createKey_last_data] at this

theorem creation_ne_keys (id : String) :
    createKey ["session", id] ≠ createKey ["session", id, "keys"] := by
  intro h
  have := congrArg String.data h
  simp [createKey_creation_data, createKey_keys_data] at this

theorem last_ne_keys (id : String) :
    createKey ["session", id, "last"] ≠ createKey ["session", id, "keys"] := by
  intro h
  have := congrArg String.data h
  simp [createKey_last_data, createKey_keys_data] at this

theorem value_key_inj (id k k2 : String) :
    createKey ["session", id, "key", k] = createKey ["session", id, "key", k2] ↔ k = k2 := by
  constructor
  · intro h
    have := congrArg String.data h
    simp [createKey_value_data] at this
    exact String.ext_iff.mpr this
  · intro h
    rw [h]

/-- Two colon-free prefixes followed by a colon agree only when the prefixes
and the remainders agree. -/
theorem colon_split (a b x y : List Char) (ha : ':' ∉ a) (hb : ':' ∉ b)
    (h : a ++ ':' :: x = b ++ ':' :: y) : a = b ∧ x = y := by
  induction a generalizing b with
  | nil =>
    cases b with
    | nil => simpa using h
    | cons c cs =>
      simp at h
      simp [← h.1] at hb
  | cons c cs ih =>
    cases b with
    | nil =>
      simp at h
      simp [h.1] at ha
    | cons d ds =>
      simp at h ha hb
      obtain ⟨h1, h2⟩ := ih ds ha.2 hb.2 h.2
      exact ⟨by rw [h.1, h1], h2⟩

theorem creation_ne_value_other (i j k : String) (hi : ':' ∉ i.data) :
    createKey ["session", i] ≠ createKey ["session", j, "key", k] := by
  intro h
  have := congrArg String.data h
  simp [createKey_creation_data, createKey_value_data] at this
  rw [this] at hi
  simp at hi

theorem last_ne_value_other (i j k : String) (hi : ':' ∉ i.data) (hj : ':' ∉ j.data) :
    createKey ["session", i, "last"] ≠ createKey ["session", j, "key", k] := by
  intro h
  have := congrArg String.data h
  simp [createKey_last_data, createKey_value_data] at this
  have := (colon_split _ _ _ _ hi hj this).2
  simp at this

theorem keys_ne_value_other (i j k : String) (hi : ':' ∉ i.data) (hj : ':' ∉ j.data) :
    createKey ["session", i, "keys"] ≠ createKey ["session", j, "key", k] := by
  intro h
  have := congrArg String.data h
  simp [createKey_keys_data, createKey_value_data] at this
  have := (colon_split _ _ _ _ hi hj this).2
  simp at this

theorem value_ne_value_other (i j name k : String) (hi : ':' ∉ i.data) (hj : ':' ∉ j.data)
    (hne : i ≠ j) :
    createKey ["session", i, "key", name] ≠ createKey ["session", j, "key", k] := by
  intro h
  have := congrArg String.data h
  simp [createKey_value_data] at this
  exact hne (String.ext_iff.mpr (colon_split _ _ _ _ hi hj this).1)

/-! ## Properties that hold over every store -/

theorem wrap64_of_inRange (x : Int) (lo : minInt64 ≤ x) (hi : x ≤ maxInt64) : wrap64 x = x := by
  unfold minInt64 at lo
  unfold maxInt64 at hi
  unfold wrap64
  omega

/-- C10. `Set` returns true for every key, value, state and store
implementation, among them the store whose `Set` and `Get` fail on every
call: identifier generation always reports success and the errors the store
returns are dropped. -/
theorem Set_returns_true :
    (∀ (σ : Type) (S : SessionStore σ) (s : Session) (now : Clock) (key val : String)
        (w : World σ), (s.Set S now key val w).2 = true) ∧
    (∀ (s : Session) (now : Clock) (key val : String) (w : World Unit),
        (s.Set failingStore now key val w).2 = true) := by
  have h : ∀ (σ : Type) (S : SessionStore σ) (s : Session) (now : Clock) (key val : String)
      (w : World σ), (s.Set S now key val w).2 = true := by
    intro σ S s now key val w
    unfold Session.Set Session.resolveSessionID
    cases hid : Session.getSessionID w with
    | none => simp [Session.generateSessionID]
    | some id =>
      by_cases ht : (s.isTimedOut S now w).2 = true <;> simp [Session.generateSessionID, ht]
  exact ⟨h, fun s now key val w => h Unit failingStore s now key val w⟩

/-- C3. When no identifier token is present, `Get` returns the empty value
with the error "Failed to find session ID" and leaves the state as it was,
for every key name, clock value and store implementation: the store
receives no call. -/
theorem Get_no_token {σ : Type} (S : SessionStore σ) (s : Session) (now : Clock) (key : String)
    (w : World σ) (h : Session.getSessionID w = none) :
    s.Get S now key w = (w, ("", some "Failed to find session ID")) := by
  unfold Session.Get
  rw [h]

/-- The statement of C3 at a store that logs its calls: the log stays
empty. -/
theorem Get_no_token_witness :
    Session.getSessionID ({ store := (emptyClient, []), ctx := emptyContext } :
        World (Client × List StoreCall)) = none ∧
    NewSession.Get recordingStore (clockAt 5) "cart"
        { store := (emptyClient, []), ctx := emptyContext }
      = ({ store := (emptyClient, []), ctx := emptyContext },
          ("", some "Failed to find session ID")) :=
  ⟨rfl, Get_no_token recordingStore NewSession (clockAt 5) "cart" _ rfl⟩

/-- C2, as amended. `isTimedOut` returns true exactly when no identifier
token is present, or the store's read of `session:<id>:last` returns an
error, or the entry does not parse as a decimal int64, or it parses to
`lastActivity` and the int64 sum `lastActivity + timeout`, which wraps around,
is below the clock's seconds; the wrapped sum is the exact sum whenever the
exact sum fits an int64, and a sum equal to the clock's seconds is still
active. -/
theorem isTimedOut_iff :
    (∀ (σ : Type) (S : SessionStore σ) (s : Session) (now : Clock) (w : World σ),
      ((s.isTimedOut S now w).2 = true ↔
        (Session.getSessionID w = none ∨
          ∃ id, Session.getSessionID w = some id ∧
            ((S.Get w.store (createKey ["session", id, "last"])).2.2 ≠ none ∨
             Atoi64 (S.Get w.store (createKey ["session", id, "last"])).2.1 = none ∨
             ∃ lastActivity,
               Atoi64 (S.Get w.store (createKey ["session", id, "last"])).2.1
                 = some lastActivity ∧
               wrap64 (lastActivity + s.timeout) < now.Seconds)))) ∧
    (∀ (s : Session) (lastActivity : Int), minInt64 ≤ lastActivity + s.timeout →
      lastActivity + s.timeout ≤ maxInt64 →
      wrap64 (lastActivity + s.timeout) = lastActivity + s.timeout) := by
  refine ⟨?_, fun s la lo hi => wrap64_of_inRange _ lo hi⟩
  intro σ S s now w
  unfold Session.isTimedOut
  cases hid : Session.getSessionID w with
  | none => simp
  | some id =>
    simp only [Option.some.injEq, exists_eq_left', false_or, reduceCtorEq]
    cases herr : (S.Get w.store (createKey ["session", id, "last"])).2.2 with
    | some e => simp
    | none =>
      cases hp : Atoi64 (S.Get w.store (createKey ["session", id, "last"])).2.1 with
      | none => simp
      | some la =>
        by_cases hlt : wrap64 (la + s.timeout) < now.Seconds <;> simp [hlt]

/-- The statement of C2 read with the exact integer sum fails: with the
last-activity entry "9223372036854775807" the exact sum is far above the
clock, yet the code's int64 sum wraps below it and the session is reported
timed out. -/
theorem isTimedOut_exact_sum_counterexample :
    (NewSession.isTimedOut RedisStore (clockAt 5) (worldWithLast "7" "9223372036854775807")).2
        = true ∧
    timedOutExact NewSession (clockAt 5) (worldWithLast "7" "9223372036854775807") = false := by
  decide

/-- The statement of C2's second part at a concrete last-activity time. -/
theorem isTimedOut_iff_witness :
    wrap64 (5 + NewSession.timeout) = 5 + NewSession.timeout :=
  isTimedOut_iff.2 NewSession 5 (by decide) (by decide)

/-! ## The operations over the store of `RedisStore` -/

theorem Clock.seconds_bounds (now : Clock) :
    -9223372037 ≤ now.Seconds ∧ now.Seconds ≤ 9223372036 := by
  have lo := now.lo
  have hi := now.hi
  unfold minInt64 at lo
  unfold maxInt64 at hi
  unfold Clock.Seconds
  omega

theorem Clock.seconds_inRange (now : Clock) :
    minInt64 ≤ now.Seconds ∧ now.Seconds ≤ maxInt64 := by
  have := now.seconds_bounds
  unfold minInt64 maxInt64
  omega

theorem Atoi64_seconds (now : Clock) : Atoi64 (Itoa64 now.Seconds) = some now.Seconds :=
  Atoi64_Itoa64 _ now.seconds_inRange.1 now.seconds_inRange.2

theorem wrap64_seconds_timeout (now : Clock) :
    wrap64 (now.Seconds + NewSession.timeout) = now.Seconds + NewSession.timeout := by
  have := now.seconds_bounds
  apply wrap64_of_inRange <;> simp only [NewSession, minInt64, maxInt64] <;> omega

theorem RedisStore_Set (c : Client) (k v : String) (e : Int) :
    RedisStore.Set c k v e = (fun k2 => if k2 = k then some (v, e) else c k2, none) := rfl

theorem RedisStore_Get (c : Client) (k : String) : RedisStore.Get c k = (c, c.Get k) := rfl

theorem RedisStore_Delete (c : Client) (ks : List String) :
    RedisStore.Delete c ks = fun k => if k ∈ ks then none else c k := rfl

theorem getSessionID_mk {σ : Type} (st : σ) (ctx : Context) :
    Session.getSessionID ({ store := st, ctx := ctx } : World σ)
      = ctx.GetSecureCookie "GOSESSIONID" := rfl

theorem isTimedOut_redis_fst (s : Session) (now : Clock) (w : World Client) :
    (s.isTimedOut RedisStore now w).1 = w := by
  unfold Session.isTimedOut
  cases hid : Session.getSessionID w with
  | none => rfl
  | some id =>
    simp only [RedisStore_Get]
    split
    · rfl
    · split
      · rfl
      · split <;> rfl

/-- Timeout detection when the last-activity entry holds the seconds of an
earlier clock reading. -/
theorem isTimedOut_redis_last (now t : Clock) (w : World Client) (id : String) (e : Int)
    (hid : Session.getSessionID w = some id)
    (hlast : w.store (createKey ["session", id, "last"]) = some (Itoa64 t.Seconds, e)) :
    (NewSession.isTimedOut RedisStore now w).2
      = decide (t.Seconds + NewSession.timeout < now.Seconds) := by
  unfold Session.isTimedOut
  simp only [hid, RedisStore_Get, Client.Get, hlast, Atoi64_seconds, wrap64_seconds_timeout]
  by_cases h : t.Seconds + NewSession.timeout < now.Seconds <;> simp [h]

theorem getSessionID_setSessionID (s : Session) (S : SessionStore σ) (now : Clock) (id : String)
    (w : World σ) (hexp : 0 < s.expiration) :
    Session.getSessionID (s.setSessionID S now id w) = some id := by
  have : ¬ s.expiration ≤ 0 := by omega
  simp [Session.getSessionID, Session.setSessionID, Context.GetSecureCookie,
    Context.SetSecureCookie, this]

/-- The identifier `Set` goes on with is the one the token holds when the
if/else chain is done. -/
theorem resolveSessionID_token (s : Session) (S : SessionStore σ) (now : Clock) (w : World σ)
    (hexp : 0 < s.expiration) :
    ∃ id, (s.resolveSessionID S now w).2 = some id ∧
      Session.getSessionID (s.resolveSessionID S now w).1 = some id := by
  unfold Session.resolveSessionID
  cases hid : Session.getSessionID w with
  | none =>
    simp only [Session.generateSessionID, Bool.not_true, Bool.false_eq_true, if_false]
    exact ⟨_, rfl, getSessionID_setSessionID s S now _ w hexp⟩
  | some id =>
    by_cases ht : (s.isTimedOut S now w).2 = true
    · simp only [ht, if_true, Session.generateSessionID, Bool.not_true, Bool.false_eq_true,
        if_false]
      exact ⟨_, rfl, getSessionID_setSessionID s S now _ _ hexp⟩
    · simp only [ht, Bool.false_eq_true, if_false]
      refine ⟨id, rfl, ?_⟩
      have hctx : (s.isTimedOut S now w).1.ctx = w.ctx := by
        unfold Session.isTimedOut
        rw [hid]
        simp only
        split
        · rfl
        · split
          · rfl
          · split <;> rfl
      unfold Session.getSessionID at hid ⊢
      rw [hctx, hid]

/-- The state `Set` leaves over the store of `RedisStore`, given the
identifier its if/else chain settled on: the token is untouched by the second
half, the value and the last-activity entry are written, and apart from
these two and the key list the store is as the first half left it. -/
theorem Set_redis_post (s : Session) (now : Clock) (key val : String) (w : World Client)
    (id : String) (hr : (s.resolveSessionID RedisStore now w).2 = some id)
    (hid : Session.getSessionID (s.resolveSessionID RedisStore now w).1 = some id) :
    (s.Set RedisStore now key val w).1.ctx = (s.resolveSessionID RedisStore now w).1.ctx ∧
    (s.Set RedisStore now key val w).1.store (createKey ["session", id, "key", key])
      = some (val, s.expiration) ∧
    (s.Set RedisStore now key val w).1.store (createKey ["session", id, "last"])
      = some (Itoa64 now.Seconds, s.expiration) ∧
    (∀ k, k ≠ createKey ["session", id, "key", key] → k ≠ createKey ["session", id, "last"] →
      k ≠ createKey ["session", id, "keys"] →
      (s.Set RedisStore now key val w).1.store k
        = (s.resolveSessionID RedisStore now w).1.store k) := by
  have hid2 : (s.resolveSessionID RedisStore now w).1.ctx.GetSecureCookie "GOSESSIONID"
      = some id := hid
  have h1 := last_ne_value id key
  have h2 := keys_ne_value id key
  have h3 := last_ne_keys id
  unfold Session.Set
  simp only [hr, Session.updateLastActivityTime, Session.updateStoredKeys, getSessionID_mk, hid2,
    RedisStore_Set, RedisStore_Get, Client.Get]
  refine ⟨?_, ?_, ?_, ?_⟩
  · split <;> rfl
  · split <;> simp [h1.symm, h2.symm]
  · split <;> simp [h1, h3]
  · intro k hk1 hk2 hk3
    split <;> simp [hk1, hk2, hk3]

/-- What `Get` does over the store of `RedisStore` on a session whose
last-activity entry holds the seconds of clock reading `t`. -/
theorem Get_redis (now t : Clock) (key : String) (w : World Client) (id : String) (e : Int)
    (hid : Session.getSessionID w = some id)
    (hlast : w.store (createKey ["session", id, "last"]) = some (Itoa64 t.Seconds, e)) :
    (t.Seconds + NewSession.timeout < now.Seconds →
      NewSession.Get RedisStore now key w = (w, ("", some "Session has timed out"))) ∧
    (¬ t.Seconds + NewSession.timeout < now.Seconds →
      (NewSession.Get RedisStore now key w).2
          = Client.Get w.store (createKey ["session", id, "key", key]) ∧
      (NewSession.Get RedisStore now key w).1.ctx = w.ctx ∧
      (NewSession.Get RedisStore now key w).1.store (createKey ["session", id, "last"])
          = some (Itoa64 now.Seconds, NewSession.expiration) ∧
      (∀ k, k ≠ createKey ["session", id, "last"] →
        (NewSession.Get RedisStore now key w).1.store k = w.store k)) := by
  have hto := isTimedOut_redis_last now t w id e hid hlast
  have hfst := isTimedOut_redis_fst NewSession now w
  have h1 := last_ne_value id key
  constructor
  · intro h
    unfold Session.Get
    simp only [hid, hto, h, decide_True, if_true, hfst]
  · intro h
    unfold Session.Get
    simp only [hid, hto, h, decide_False, hfst, Session.updateLastActivityTime, RedisStore_Set,
      RedisStore_Get, Client.Get, Bool.false_eq_true, if_false]
    refine ⟨?_, trivial, ?_, ?_⟩
    · simp [h1.symm]
    · simp
    · intro k hk
      simp [hk]

/-! ## Round trip and timeout -/

/-- Reading back what was just written, at the same clock reading. -/
theorem roundtrip_same_clock (now : Clock) (k v : String) (w : World Client) :
    (NewSession.Get RedisStore now k (NewSession.Set RedisStore now k v w).1).2 = (v, none) := by
  obtain ⟨id, hr, hid⟩ := resolveSessionID_token NewSession RedisStore now w (by decide)
  obtain ⟨hctx, hval, hlast, -⟩ := Set_redis_post NewSession now k v w id hr hid
  have htok : Session.getSessionID (NewSession.Set RedisStore now k v w).1 = some id := by
    unfold Session.getSessionID at hid ⊢
    rw [hctx, hid]
  have hnot : ¬ now.Seconds + NewSession.timeout < now.Seconds := by
    simp only [NewSession]
    omega
  have hg := ((Get_redis now now k _ id _ htok hlast).2 hnot).1
  rw [hg]
  simp [Client.Get, hval]

/-- C1. Over the store of `RedisStore` and a token accessor whose read
returns the last value written, for every key name, value, clock reading and
starting state (no token, the token of an active session or the token of a
timed-out session), `Set(k, v)` followed by `Get(k)` at the same clock reading
returns `v` with no error. -/
theorem Set_then_Get (now : Clock) (k v : String) (w : World Client) :
    (NewSession.Get RedisStore now k (NewSession.Set RedisStore now k v w).1).2 = (v, none) :=
  roundtrip_same_clock now k v w

/-! ## Re-issue after a timeout -/

theorem resolveSessionID_none (s : Session) (S : SessionStore σ) (now : Clock) (w : World σ)
    (hid : Session.getSessionID w = none) :
    s.resolveSessionID S now w
      = (s.setSessionID S now (Itoa64 now.Nanoseconds) w, some (Itoa64 now.Nanoseconds)) := by
  unfold Session.resolveSessionID
  simp [hid, Session.generateSessionID]

theorem resolveSessionID_timedOut (s : Session) (S : SessionStore σ) (now : Clock) (w : World σ)
    (o : String) (hid : Session.getSessionID w = some o)
    (ht : (s.isTimedOut S now w).2 = true) :
    s.resolveSessionID S now w
      = (s.setSessionID S now (Itoa64 now.Nanoseconds)
          (Session.removeSessionID S (s.isTimedOut S now w).1), some (Itoa64 now.Nanoseconds)) := by
  unfold Session.resolveSessionID
  simp [hid, ht, Session.generateSessionID]

theorem resolveSessionID_active (s : Session) (S : SessionStore σ) (now : Clock) (w : World σ)
    (id : String) (hid : Session.getSessionID w = some id)
    (ht : (s.isTimedOut S now w).2 = false) :
    s.resolveSessionID S now w = ((s.isTimedOut S now w).1, some id) := by
  unfold Session.resolveSessionID
  simp [hid, ht]

theorem setSessionID_redis_store (s : Session) (now : Clock) (id : String) (w : World Client) :
    (s.setSessionID RedisStore now id w).store
      = fun k => if k = createKey ["session", id, "last"] then
            some (Itoa64 now.Seconds, s.expiration)
          else if k = createKey ["session", id] then some (Itoa64 now.Seconds, s.expiration)
          else w.store k := rfl

theorem Itoa64_injective (a b : Clock) (h : Itoa64 a.Nanoseconds = Itoa64 b.Nanoseconds) :
    a.Nanoseconds = b.Nanoseconds := by
  have ha := Atoi64_Itoa64 a.Nanoseconds a.lo a.hi
  have hb := Atoi64_Itoa64 b.Nanoseconds b.lo b.hi
  rw [h, hb] at ha
  exact (Option.some.inj ha).symm

/-- C5. When the token names a timed-out session whose identifier `o` is the
rendering of an earlier nanosecond clock reading, `Set(k2, v2)` installs in
the token the rendering `n` of the current nanosecond reading, which differs
from `o`, writes the creation and the last-activity entry of `n` with the
current seconds, and a following `Get(k2)` returns `v2` with no error. -/
theorem Set_reissues_after_timeout (t0 now : Clock) (k2 v2 : String) (w : World Client)
    (hid : Session.getSessionID w = some (Itoa64 t0.Nanoseconds))
    (hearlier : t0.Nanoseconds < now.Nanoseconds)
    (ht : (NewSession.isTimedOut RedisStore now w).2 = true) :
    Session.getSessionID (NewSession.Set RedisStore now k2 v2 w).1
        = some (Itoa64 now.Nanoseconds) ∧
    Itoa64 now.Nanoseconds ≠ Itoa64 t0.Nanoseconds ∧
    (NewSession.Set RedisStore now k2 v2 w).1.store
        (createKey ["session", Itoa64 now.Nanoseconds])
        = some (Itoa64 now.Seconds, NewSession.expiration) ∧
    (NewSession.Set RedisStore now k2 v2 w).1.store
        (createKey ["session", Itoa64 now.Nanoseconds, "last"])
        = some (Itoa64 now.Seconds, NewSession.expiration) ∧
    (NewSession.Get RedisStore now k2 (NewSession.Set RedisStore now k2 v2 w).1).2
        = (v2, none) := by
  have hres := resolveSessionID_timedOut NewSession RedisStore now w _ hid ht
  have hr : (NewSession.resolveSessionID RedisStore now w).2 = some (Itoa64 now.Nanoseconds) := by
    rw [hres]
  have hid2 : Session.getSessionID (NewSession.resolveSessionID RedisStore now w).1
      = some (Itoa64 now.Nanoseconds) := by
    rw [hres]
    exact getSessionID_setSessionID NewSession RedisStore now _ _ (by decide)
  obtain ⟨hctx, -, hlast, hframe⟩ := Set_redis_post NewSession now k2 v2 w _ hr hid2
  refine ⟨?_, ?_, ?_, hlast, roundtrip_same_clock now k2 v2 w⟩
  · unfold Session.getSessionID at hid2 ⊢
    rw [hctx, hid2]
  · intro h
    have := Itoa64_injective now t0 h
    omega
  · rw [hframe _ (creation_ne_value _ _) (creation_ne_last _) (creation_ne_keys _), hres]
    rw [setSessionID_redis_store]
    simp [creation_ne_last]

/-- The scenario of C5: `Set("cart", "3 items")` at second 10, then, one
second past the timeout, the session is timed out and `Set("cart", "1 item")`
re-issues the identifier, after which `Get("cart")` returns "1 item". -/
theorem Set_reissues_after_timeout_witness :
    Session.getSessionID (NewSession.Set RedisStore (clockAt 10) "cart" "3 items" freshWorld).1
        = some (Itoa64 (clockAt 10).Nanoseconds) ∧
    (NewSession.Get RedisStore (clockAt 3611) "cart"
        (NewSession.Set RedisStore (clockAt 10) "cart" "3 items" freshWorld).1).2
        = ("", some "Session has timed out") ∧
    Session.getSessionID (NewSession.Set RedisStore (clockAt 3611) "cart" "1 item"
        (NewSession.Set RedisStore (clockAt 10) "cart" "3 items" freshWorld).1).1
        = some (Itoa64 (clockAt 3611).Nanoseconds) ∧
    Itoa64 (clockAt 3611).Nanoseconds ≠ Itoa64 (clockAt 10).Nanoseconds ∧
    (NewSession.Get RedisStore (clockAt 3611) "cart"
        (NewSession.Set RedisStore (clockAt 3611) "cart" "1 item"
          (NewSession.Set RedisStore (clockAt 10) "cart" "3 items" freshWorld).1).1).2
        = ("1 item", none) :=
  have h := Set_reissues_after_timeout (clockAt 10) (clockAt 3611) "cart" "1 item"
    (NewSession.Set RedisStore (clockAt 10) "cart" "3 items" freshWorld).1
    (by decide) (by decide) (by decide)
  ⟨by decide, by decide, h.1, h.2.1, h.2.2.2.2⟩

/-! ## Activity refresh -/

/-- One call on an active session, no more than the timeout after the
reading held by its last-activity entry: the call finds the session active
and leaves its own reading in the entry. -/
theorem run_active (id : String) (t now : Clock) (w : World Client) (e : Int) (c : Call)
    (hid : Session.getSessionID w = some id)
    (hlast : w.store (createKey ["session", id, "last"]) = some (Itoa64 t.Seconds, e))
    (hgap : now.Seconds ≤ t.Seconds + NewSession.timeout) :
    (NewSession.isTimedOut RedisStore now w).2 = false ∧
    (match c with
      | Call.get key =>
        (NewSession.Get RedisStore now key w).2.2 ≠ some "Session has timed out" ∧
        (NewSession.Get RedisStore now key w).2.2 ≠ some "Failed to find session ID"
      | Call.set key val =>
        Session.getSessionID (NewSession.Set RedisStore now key val w).1 = some id) ∧
    Session.getSessionID (NewSession.run RedisStore now c w) = some id ∧
    (NewSession.run RedisStore now c w).store (createKey ["session", id, "last"])
      = some (Itoa64 now.Seconds, NewSession.expiration) := by
  have hnot : ¬ t.Seconds + NewSession.timeout < now.Seconds := by omega
  have hto : (NewSession.isTimedOut RedisStore now w).2 = false := by
    rw [isTimedOut_redis_last now t w id e hid hlast]
    simp [hnot]
  refine ⟨hto, ?_⟩
  cases c with
  | get key =>
    obtain ⟨hres, hctx, hl, -⟩ := (Get_redis now t key w id e hid hlast).2 hnot
    refine ⟨⟨?_, ?_⟩, ?_, hl⟩
    · rw [hres]
      unfold Client.Get
      split <;> simp [ErrNotFound]
    · rw [hres]
      unfold Client.Get
      split <;> simp [ErrNotFound]
    · unfold Session.run Session.getSessionID at *
      simp only
      rw [hctx, hid]
  | set key val =>
    have hres := resolveSessionID_active NewSession RedisStore now w id hid hto
    rw [isTimedOut_redis_fst] at hres
    have hr : (NewSession.resolveSessionID RedisStore now w).2 = some id := by rw [hres]
    have hid2 : Session.getSessionID (NewSession.resolveSessionID RedisStore now w).1
        = some id := by rw [hres]; exact hid
    obtain ⟨hctx, -, hl, -⟩ := Set_redis_post NewSession now key val w id hr hid2
    have htok : Session.getSessionID (NewSession.Set RedisStore now key val w).1 = some id := by
      unfold Session.getSessionID at hid2 ⊢
      rw [hctx, hid2]
    exact ⟨htok, htok, hl⟩

/-! ## Clear -/

/-- C7, at an input where the code departs from it. After
`Set("a:b", "v")` in a fresh session, `Clear()` leaves the value entry of
"a:b" in the store and `Get("a:b")` still returns "v": the tracked key list
"a:b" is split at the colon into "a" and "b", and the entries of those two
names are the ones deleted. -/
theorem Clear_keeps_colon_key :
    Session.getStoredKeys RedisStore
        (NewSession.Set RedisStore (clockAt 5) "a:b" "v" freshWorld).1
      = ((NewSession.Set RedisStore (clockAt 5) "a:b" "v" freshWorld).1, ["a", "b"]) ∧
    (NewSession.Get RedisStore (clockAt 5) "a:b"
        (NewSession.Clear RedisStore (clockAt 5)
          (NewSession.Set RedisStore (clockAt 5) "a:b" "v" freshWorld).1)).2 = ("v", none) := by
  refine ⟨?_, by decide⟩
  rfl

theorem getStoredKeys_redis_fst (w : World Client) :
    (Session.getStoredKeys RedisStore w).1 = w := by
  unfold Session.getStoredKeys
  cases hid : Session.getSessionID w with
  | none => rfl
  | some id =>
    simp only [RedisStore_Get]
    split <;> rfl

/-- Over the store of `RedisStore` the tracked key list read by
`getStoredKeys` depends on the token and on the key-list entry only. -/
theorem getStoredKeys_redis_congr (w w2 : World Client) (id : String)
    (h1 : Session.getSessionID w = some id) (h2 : Session.getSessionID w2 = some id)
    (h : w.store (createKey ["session", id, "keys"])
      = w2.store (createKey ["session", id, "keys"])) :
    (Session.getStoredKeys RedisStore w).2 = (Session.getStoredKeys RedisStore w2).2 := by
  unfold Session.getStoredKeys
  simp only [h1, h2, RedisStore_Get, Client.Get, h]
  cases w2.store (createKey ["session", id, "keys"]) <;> rfl

/-- Over the store of `RedisStore` timeout detection depends on the token
and on the last-activity entry only. -/
theorem isTimedOut_redis_congr (s : Session) (now : Clock) (w w2 : World Client) (id : String)
    (h1 : Session.getSessionID w = some id) (h2 : Session.getSessionID w2 = some id)
    (h : w.store (createKey ["session", id, "last"])
      = w2.store (createKey ["session", id, "last"])) :
    (s.isTimedOut RedisStore now w).2 = (s.isTimedOut RedisStore now w2).2 := by
  unfold Session.isTimedOut
  simp only [h1, h2, RedisStore_Get, Client.Get, h]
  cases w2.store (createKey ["session", id, "last"]) with
  | none => rfl
  | some entry =>
    simp only
    cases Atoi64 entry.1 with
    | none => rfl
    | some la => simp only; split <;> rfl

theorem last_not_mem_values (id : String) (keys : List String) :
    createKey ["session", id, "last"]
      ∉ keys.map (fun key => createKey ["session", id, "key", key]) := by
  intro h
  obtain ⟨k, -, hk⟩ := List.mem_map.mp h
  exact last_ne_value id k hk.symm

theorem keys_not_mem_values (id : String) (keys : List String) :
    createKey ["session", id, "keys"]
      ∉ keys.map (fun key => createKey ["session", id, "key", key]) := by
  intro h
  obtain ⟨k, -, hk⟩ := List.mem_map.mp h
  exact keys_ne_value id k hk.symm

/-- The state `Delete` leaves over the store of `RedisStore` when a token is
present. -/
theorem Delete_redis (s : Session) (now : Clock) (keys : List String) (w : World Client)
    (id : String) (hid : Session.getSessionID w = some id) :
    s.Delete RedisStore now keys w
      = { store := fun k =>
            if k ∈ keys.map (fun key => createKey ["session", id, "key", key]) then none
            else if (s.isTimedOut RedisStore now w).2 = true then w.store k
            else if k = createKey ["session", id, "last"] then
              some (Itoa64 now.Seconds, s.expiration)
            else w.store k
          ctx := w.ctx } := by
  unfold Session.Delete
  simp only [hid, isTimedOut_redis_fst, RedisStore_Delete]
  cases ht : (s.isTimedOut RedisStore now w).2 with
  | true => simp
  | false =>
    simp [Session.updateLastActivityTime, hid, RedisStore_Set]

/-- A second `Clear()` at the same clock reading leaves the state exactly as
the first `Clear()` left it. -/
theorem Clear_same_clock (now : Clock) (w : World Client) :
    NewSession.Clear RedisStore now (NewSession.Clear RedisStore now w)
      = NewSession.Clear RedisStore now w := by
  have hclear : ∀ w2 : World Client, NewSession.Clear RedisStore now w2
      = NewSession.Delete RedisStore now (Session.getStoredKeys RedisStore w2).2 w2 := by
    intro w2
    unfold Session.Clear
    simp only [getStoredKeys_redis_fst]
  cases hid : Session.getSessionID w with
  | none =>
    have h0 : NewSession.Clear RedisStore now w = w := by
      rw [hclear]
      unfold Session.Delete
      simp [hid]
    rw [h0, h0]
  | some id =>
    have hfirst := Delete_redis NewSession now (Session.getStoredKeys RedisStore w).2 w id hid
    have hid2 : Session.getSessionID (NewSession.Clear RedisStore now w) = some id := by
      rw [hclear, hfirst]
      exact hid
    have hkeys : (NewSession.Clear RedisStore now w).store (createKey ["session", id, "keys"])
        = w.store (createKey ["session", id, "keys"]) := by
      rw [hclear, hfirst]
      simp only [keys_not_mem_values, if_false, (last_ne_keys id).symm, ite_self]
    have hlist := getStoredKeys_redis_congr _ _ id hid2 hid hkeys
    rw [hclear (NewSession.Clear RedisStore now w), hlist,
      Delete_redis NewSession now _ _ id hid2]
    cases ht : (NewSession.isTimedOut RedisStore now w).2 with
    | true =>
      have hlast : (NewSession.Clear RedisStore now w).store (createKey ["session", id, "last"])
          = w.store (createKey ["session", id, "last"]) := by
        rw [hclear, hfirst]
        simp only [last_not_mem_values, if_false, ht, if_true]
      have ht2 := isTimedOut_redis_congr NewSession now _ _ id hid2 hid hlast
      rw [ht] at ht2
      rw [ht2]
      rw [hclear, hfirst]
      simp only [ht, if_true]
      congr 1
      funext k
      split <;> rfl
    | false =>
      have hlast : (NewSession.Clear RedisStore now w).store (createKey ["session", id, "last"])
          = some (Itoa64 now.Seconds, NewSession.expiration) := by
        rw [hclear, hfirst]
        simp only [last_not_mem_values, if_false, ht, Bool.false_eq_true, if_true]
      have ht2 : (NewSession.isTimedOut RedisStore now (NewSession.Clear RedisStore now w)).2
          = false := by
        rw [isTimedOut_redis_last now now _ id _ hid2 hlast]
        simp [NewSession]
      rw [ht2]
      rw [hclear, hfirst]
      simp only [ht, Bool.false_eq_true, if_false]
      congr 1
      funext k
      split
      · rfl
      · split <;> rfl

/-! ## Isolation -/

theorem creation_ne_last_other (i j : String) (hi : ':' ∉ i.data) :
    createKey ["session", i] ≠ createKey ["session", j, "last"] := by
  intro h
  have := congrArg String.data h
  simp [createKey_creation_data, createKey_last_data] at this
  rw [this] at hi
  simp at hi

theorem last_ne_last_other (i j : String) (hne : i ≠ j) :
    createKey ["session", i, "last"] ≠ createKey ["session", j, "last"] := by
  intro h
  have := congrArg String.data h
  simp [createKey_last_data] at this
  exact hne (String.ext_iff.mpr this)

theorem keys_ne_last_other (i j : String) (hi : ':' ∉ i.data) (hj : ':' ∉ j.data) :
    createKey ["session", i, "keys"] ≠ createKey ["session", j, "last"] := by
  intro h
  have := congrArg String.data h
  simp [createKey_keys_data, createKey_last_data] at this
  have := (colon_split _ _ _ _ hi hj this).2
  simp at this

theorem value_ne_last_other (i j name : String) (hi : ':' ∉ i.data) (hj : ':' ∉ j.data) :
    createKey ["session", i, "key", name] ≠ createKey ["session", j, "last"] := by
  intro h
  have := congrArg String.data h
  simp [createKey_value_data, createKey_last_data] at this
  have := (colon_split _ _ _ _ hi hj this).2
  simp at this

/-- The store entries `Set` can change over the store of `RedisStore`: the
four kinds of entry of the identifier it leaves in the token, and the
creation and last-activity entry of the identifier it found there. -/
theorem Set_redis_frame (now : Clock) (key val : String) (w : World Client) :
    ∃ id, Session.getSessionID (NewSession.Set RedisStore now key val w).1 = some id ∧
      ∀ κ, κ ≠ createKey ["session", id] → κ ≠ createKey ["session", id, "last"] →
        κ ≠ createKey ["session", id, "keys"] → κ ≠ createKey ["session", id, "key", key] →
        (∀ o, Session.getSessionID w = some o →
          κ ≠ createKey ["session", o] ∧ κ ≠ createKey ["session", o, "last"]) →
        (NewSession.Set RedisStore now key val w).1.store κ = w.store κ := by
  obtain ⟨id, hr, hid⟩ := resolveSessionID_token NewSession RedisStore now w (by decide)
  obtain ⟨hctx, -, -, hframe⟩ := Set_redis_post NewSession now key val w id hr hid
  refine ⟨id, ?_, ?_⟩
  · unfold Session.getSessionID at hid ⊢
    rw [hctx, hid]
  · intro κ h1 h2 h3 h4 hold
    rw [hframe κ h4 h2 h3]
    cases hw : Session.getSessionID w with
    | none =>
      have hres := resolveSessionID_none NewSession RedisStore now w hw
      rw [hres] at hr
      have hn : Itoa64 now.Nanoseconds = id := Option.some.inj hr
      rw [hres, setSessionID_redis_store, hn]
      simp only [h1, h2, if_false]
    | some o =>
      cases ht : (NewSession.isTimedOut RedisStore now w).2 with
      | true =>
        have hres := resolveSessionID_timedOut NewSession RedisStore now w o hw ht
        rw [hres] at hr
        have hn : Itoa64 now.Nanoseconds = id := Option.some.inj hr
        rw [hres, setSessionID_redis_store, hn, isTimedOut_redis_fst]
        obtain ⟨ho1, ho2⟩ := hold o hw
        simp only [h1, h2, if_false, Session.removeSessionID, hw, RedisStore_Delete,
          List.mem_cons, ho1, ho2, List.mem_nil_iff, or_self]
      | false =>
        have hres := resolveSessionID_active NewSession RedisStore now w o hw ht
        rw [hres, isTimedOut_redis_fst]

/-- Over the store of `RedisStore` the result of `Get` depends on the token,
on the last-activity entry and on the value entry only. -/
theorem Get_redis_congr (now : Clock) (k : String) (w w2 : World Client) (id : String)
    (h1 : Session.getSessionID w = some id) (h2 : Session.getSessionID w2 = some id)
    (hlast : w.store (createKey ["session", id, "last"])
      = w2.store (createKey ["session", id, "last"]))
    (hval : w.store (createKey ["session", id, "key", k])
      = w2.store (createKey ["session", id, "key", k])) :
    (NewSession.Get RedisStore now k w).2 = (NewSession.Get RedisStore now k w2).2 := by
  have ht := isTimedOut_redis_congr NewSession now w w2 id h1 h2 hlast
  have hne := (last_ne_value id k).symm
  unfold Session.Get
  simp only [h1, h2, ht, isTimedOut_redis_fst]
  cases (NewSession.isTimedOut RedisStore now w2).2 with
  | true => rfl
  | false =>
    simp only [Bool.false_eq_true, if_false, Session.updateLastActivityTime, h1, h2,
      RedisStore_Set, RedisStore_Get, Client.Get, hne, hval]

/-- C9. Let `i` and `j` be distinct identifiers without a colon, as the
generator issues them, and `k` any key name. None of the store keys of `i`
(creation, last activity, key list, value entries) is a value-entry key of
`j`. `Delete` and `Clear` run with token `i`, and `Set` when it runs under `i`
(the token names `i` when it returns, and the identifier it found in the
token, if any, is colon-free and not `j`), leave the store entry
`session:<j>:key:<k>` unchanged, and `Get(k)` of a request with token `j`
returns the same result on the store before and after. -/
theorem isolation (i j : String) (hi : ':' ∉ i.data) (hj : ':' ∉ j.data) (hne : i ≠ j)
    (k : String) :
    (∀ name, createKey ["session", i] ≠ createKey ["session", j, "key", k] ∧
      createKey ["session", i, "last"] ≠ createKey ["session", j, "key", k] ∧
      createKey ["session", i, "keys"] ≠ createKey ["session", j, "key", k] ∧
      createKey ["session", i, "key", name] ≠ createKey ["session", j, "key", k]) ∧
    (∀ (now : Clock) (names : List String) (w : World Client),
      Session.getSessionID w = some i →
      (NewSession.Delete RedisStore now names w).store (createKey ["session", j, "key", k])
        = w.store (createKey ["session", j, "key", k]) ∧
      (∀ now2, (NewSession.Get RedisStore now2 k
          (requestOf j (NewSession.Delete RedisStore now names w).store)).2
        = (NewSession.Get RedisStore now2 k (requestOf j w.store)).2)) ∧
    (∀ (now : Clock) (w : World Client),
      Session.getSessionID w = some i →
      (NewSession.Clear RedisStore now w).store (createKey ["session", j, "key", k])
        = w.store (createKey ["session", j, "key", k]) ∧
      (∀ now2, (NewSession.Get RedisStore now2 k
          (requestOf j (NewSession.Clear RedisStore now w).store)).2
        = (NewSession.Get RedisStore now2 k (requestOf j w.store)).2)) ∧
    (∀ (now : Clock) (key val : String) (w : World Client),
      Session.getSessionID (NewSession.Set RedisStore now key val w).1 = some i →
      (∀ o, Session.getSessionID w = some o → ':' ∉ o.data ∧ o ≠ j) →
      (NewSession.Set RedisStore now key val w).1.store (createKey ["session", j, "key", k])
        = w.store (createKey ["session", j, "key", k]) ∧
      (∀ now2, (NewSession.Get RedisStore now2 k
          (requestOf j (NewSession.Set RedisStore now key val w).1.store)).2
        = (NewSession.Get RedisStore now2 k (requestOf j w.store)).2)) := by
  have hdel : ∀ (now : Clock) (names : List String) (w : World Client),
      Session.getSessionID w = some i →
      (NewSession.Delete RedisStore now names w).store (createKey ["session", j, "key", k])
        = w.store (createKey ["session", j, "key", k]) ∧
      (NewSession.Delete RedisStore now names w).store (createKey ["session", j, "last"])
        = w.store (createKey ["session", j, "last"]) := by
    intro now names w hw
    rw [Delete_redis NewSession now names w i hw]
    have m1 : createKey ["session", j, "key", k]
        ∉ names.map (fun key => createKey ["session", i, "key", key]) := by
      intro h
      obtain ⟨n, -, hn⟩ := List.mem_map.mp h
      exact value_ne_value_other i j n k hi hj hne hn
    have m2 : createKey ["session", j, "last"]
        ∉ names.map (fun key => createKey ["session", i, "key", key]) := by
      intro h
      obtain ⟨n, -, hn⟩ := List.mem_map.mp h
      exact value_ne_last_other i j n hi hj hn
    have e1 := (last_ne_value_other i j k hi hj).symm
    have e2 := (last_ne_last_other i j hne).symm
    constructor
    · simp only [m1, if_false, e1, ite_self]
    · simp only [m2, if_false, e2, ite_self]
  have hget : ∀ (st st2 : Client),
      st (createKey ["session", j, "key", k]) = st2 (createKey ["session", j, "key", k]) →
      st (createKey ["session", j, "last"]) = st2 (createKey ["session", j, "last"]) →
      ∀ now2, (NewSession.Get RedisStore now2 k (requestOf j st)).2
        = (NewSession.Get RedisStore now2 k (requestOf j st2)).2 := by
    intro st st2 hv hl now2
    exact Get_redis_congr now2 k _ _ j rfl rfl hl hv
  refine ⟨?_, ?_, ?_, ?_⟩
  · intro name
    exact ⟨creation_ne_value_other i j k hi, last_ne_value_other i j k hi hj,
      keys_ne_value_other i j k hi hj, value_ne_value_other i j name k hi hj hne⟩
  · intro now names w hw
    obtain ⟨h1, h2⟩ := hdel now names w hw
    exact ⟨h1, hget _ _ h1 h2⟩
  · intro now w hw
    have hclear : NewSession.Clear RedisStore now w
        = NewSession.Delete RedisStore now (Session.getStoredKeys RedisStore w).2 w := by
      unfold Session.Clear
      simp only [getStoredKeys_redis_fst]
    rw [hclear]
    obtain ⟨h1, h2⟩ := hdel now _ w hw
    exact ⟨h1, hget _ _ h1 h2⟩
  · intro now key val w hafter hbefore
    obtain ⟨id, hid, hframe⟩ := Set_redis_frame now key val w
    rw [hafter] at hid
    have hid2 : i = id := Option.some.inj hid
    subst hid2
    have hv := hframe (createKey ["session", j, "key", k])
      (creation_ne_value_other i j k hi).symm (last_ne_value_other i j k hi hj).symm
      (keys_ne_value_other i j k hi hj).symm (value_ne_value_other i j key k hi hj hne).symm
      (fun o ho => ⟨(creation_ne_value_other o j k (hbefore o ho).1).symm,
        (last_ne_value_other o j k (hbefore o ho).1 hj).symm⟩)
    have hl := hframe (createKey ["session", j, "last"])
      (creation_ne_last_other i j hi).symm (last_ne_last_other i j hne).symm
      (keys_ne_last_other i j hi hj).symm (value_ne_last_other i j key hi hj).symm
      (fun o ho => ⟨(creation_ne_last_other o j (hbefore o ho).1).symm,
        (last_ne_last_other o j (hbefore o ho).2).symm⟩)
    exact ⟨hv, hget _ _ hv hl⟩

/-- The statement of C9 for a `Set` that issues the identifier "1000000000"
while session "2" holds a value under the same key name. -/
theorem isolation_witness :
    (':' ∉ "1000000000".data ∧ ':' ∉ "2".data ∧ "1000000000" ≠ "2") ∧
    Session.getSessionID (NewSession.Set RedisStore (clockAt 1) "a:b" "theirs"
        otherSessionWorld).1 = some "1000000000" ∧
    (NewSession.Set RedisStore (clockAt 1) "a:b" "theirs" otherSessionWorld).1.store
        (createKey ["session", "2", "key", "a:b"])
      = otherSessionWorld.store (createKey ["session", "2", "key", "a:b"]) :=
  ⟨⟨by decide, by decide, by decide⟩, by decide,
    ((isolation "1000000000" "2" (by decide) (by decide) (by decide) "a:b").2.2.2
      (clockAt 1) "a:b" "theirs" otherSessionWorld (by decide)
      (fun o ho => Option.noConfusion ho)).1⟩

/-! ## Delete, Clear and failed reads -/

theorem creation_not_mem_values (id : String) (keys : List String) :
    createKey ["session", id]
      ∉ keys.map (fun key => createKey ["session", id, "key", key]) := by
  intro h
  obtain ⟨k, -, hk⟩ := List.mem_map.mp h
  exact creation_ne_value id k hk.symm

/-- Once `isTimedOut` is true it stays true at every later clock reading, as
long as the state is the same. -/
theorem isTimedOut_mono {σ : Type} (s : Session) (S : SessionStore σ) (now now2 : Clock)
    (w : World σ) (h : (s.isTimedOut S now w).2 = true) (hle : now.Seconds ≤ now2.Seconds) :
    (s.isTimedOut S now2 w).2 = true := by
  unfold Session.isTimedOut at h ⊢
  cases hid : Session.getSessionID w with
  | none => rfl
  | some id =>
    rw [hid] at h
    simp only at h ⊢
    cases herr : (S.Get w.store (createKey ["session", id, "last"])).2.2 with
    | some e => rfl
    | none =>
      rw [herr] at h
      simp only at h ⊢
      cases hp : Atoi64 (S.Get w.store (createKey ["session", id, "last"])).2.1 with
      | none => rfl
      | some la =>
        rw [hp] at h
        simp only at h ⊢
        by_cases hlt : wrap64 (la + s.timeout) < now.Seconds
        · have : wrap64 (la + s.timeout) < now2.Seconds := by omega
          simp [this]
        · simp [hlt] at h

/-- C11. Over the store of `RedisStore`, when a token is present: if the
session is timed out, `Delete(names...)` leaves the last-activity entry
exactly as it was, so `isTimedOut` is still true afterwards (at the same and
at every later clock reading), and the value entries of the listed names are
removed; if the session is not timed out, `Delete` sets the last-activity
entry to the current time in seconds. -/
theorem Delete_does_not_resurrect (s : Session) (now : Clock) (names : List String)
    (w : World Client) (id : String) (hid : Session.getSessionID w = some id) :
    ((s.isTimedOut RedisStore now w).2 = true →
      (s.Delete RedisStore now names w).store (createKey ["session", id, "last"])
        = w.store (createKey ["session", id, "last"]) ∧
      (∀ now2 : Clock, now.Seconds ≤ now2.Seconds →
        (s.isTimedOut RedisStore now2 (s.Delete RedisStore now names w)).2 = true) ∧
      (∀ name ∈ names,
        (s.Delete RedisStore now names w).store (createKey ["session", id, "key", name])
          = none)) ∧
    ((s.isTimedOut RedisStore now w).2 = false →
      (s.Delete RedisStore now names w).store (createKey ["session", id, "last"])
        = some (Itoa64 now.Seconds, s.expiration)) := by
  have hd := Delete_redis s now names w id hid
  have hid2 : Session.getSessionID (s.Delete RedisStore now names w) = some id := by
    rw [hd]
    exact hid
  constructor
  · intro ht
    have hlast : (s.Delete RedisStore now names w).store (createKey ["session", id, "last"])
        = w.store (createKey ["session", id, "last"]) := by
      rw [hd]
      simp only [last_not_mem_values, if_false, ht, if_true]
    refine ⟨hlast, ?_, ?_⟩
    · intro now2 hle
      rw [isTimedOut_redis_congr s now2 _ w id hid2 hid hlast]
      exact isTimedOut_mono s RedisStore now now2 w ht hle
    · intro name hname
      rw [hd]
      have : createKey ["session", id, "key", name]
          ∈ names.map (fun key => createKey ["session", id, "key", key]) :=
        List.mem_map.mpr ⟨name, hname, rfl⟩
      simp only [this, if_true]
  · intro ht
    rw [hd]
    simp only [last_not_mem_values, if_false, ht, Bool.false_eq_true, if_true]

/-- The statement of C11 on the cart session, one second past its timeout. -/
theorem Delete_does_not_resurrect_witness :
    Session.getSessionID (NewSession.Set RedisStore (clockAt 10) "cart" "3 items" freshWorld).1
        = some "10000000000" ∧
    (NewSession.isTimedOut RedisStore (clockAt 3611)
        (NewSession.Set RedisStore (clockAt 10) "cart" "3 items" freshWorld).1).2 = true ∧
    (NewSession.Delete RedisStore (clockAt 3611) ["cart"]
        (NewSession.Set RedisStore (clockAt 10) "cart" "3 items" freshWorld).1).store
        (createKey ["session", "10000000000", "last"])
      = (NewSession.Set RedisStore (clockAt 10) "cart" "3 items" freshWorld).1.store
        (createKey ["session", "10000000000", "last"]) ∧
    (NewSession.Delete RedisStore (clockAt 3611) ["cart"]
        (NewSession.Set RedisStore (clockAt 10) "cart" "3 items" freshWorld).1).store
        (createKey ["session", "10000000000", "key", "cart"]) = none :=
  have h := (Delete_does_not_resurrect NewSession (clockAt 3611) ["cart"]
    (NewSession.Set RedisStore (clockAt 10) "cart" "3 items" freshWorld).1 "10000000000"
    (by decide)).1 (by decide)
  ⟨by decide, by decide, h.1, h.2.2 "cart" (by decide)⟩

/-- C12. Over the store of `RedisStore`, when the token names `id`, after
`Delete(names...)` the value entry of every listed name is absent and every
store entry other than those and the last-activity entry of `id` is
unchanged: in particular the tracked key list and the creation entry of `id`
are unchanged and the value entries of names that are not listed keep their
values. The request context is unchanged. -/
theorem Delete_effect (s : Session) (now : Clock) (names : List String) (w : World Client)
    (id : String) (hid : Session.getSessionID w = some id) :
    (∀ name ∈ names,
      (s.Delete RedisStore now names w).store (createKey ["session", id, "key", name])
        = none) ∧
    (∀ κ, κ ≠ createKey ["session", id, "last"] →
      κ ∉ names.map (fun name => createKey ["session", id, "key", name]) →
      (s.Delete RedisStore now names w).store κ = w.store κ) ∧
    (s.Delete RedisStore now names w).store (createKey ["session", id, "keys"])
      = w.store (createKey ["session", id, "keys"]) ∧
    (s.Delete RedisStore now names w).store (createKey ["session", id])
      = w.store (createKey ["session", id]) ∧
    (∀ name, name ∉ names →
      (s.Delete RedisStore now names w).store (createKey ["session", id, "key", name])
        = w.store (createKey ["session", id, "key", name])) ∧
    (s.Delete RedisStore now names w).ctx = w.ctx := by
  have hd := Delete_redis s now names w id hid
  have hframe : ∀ κ, κ ≠ createKey ["session", id, "last"] →
      κ ∉ names.map (fun name => createKey ["session", id, "key", name]) →
      (s.Delete RedisStore now names w).store κ = w.store κ := by
    intro κ h1 h2
    rw [hd]
    simp only [h2, if_false, h1, ite_self]
  refine ⟨?_, hframe, ?_, ?_, ?_, ?_⟩
  · intro name hname
    rw [hd]
    have : createKey ["session", id, "key", name]
        ∈ names.map (fun key => createKey ["session", id, "key", key]) :=
      List.mem_map.mpr ⟨name, hname, rfl⟩
    simp only [this, if_true]
  · exact hframe _ (last_ne_keys id).symm (keys_not_mem_values id names)
  · exact hframe _ (creation_ne_last id) (creation_not_mem_values id names)
  · intro name hname
    apply hframe _ (last_ne_value id name).symm
    intro h
    obtain ⟨n, hn, he⟩ := List.mem_map.mp h
    exact hname (((value_key_inj id n name).mp he) ▸ hn)
  · rw [hd]

/-- The statement of C12 on a session that holds two values, one of which is
deleted. -/
theorem Delete_effect_witness :
    Session.getSessionID (NewSession.Set RedisStore (clockAt 10) "wish" "1 item"
        (NewSession.Set RedisStore (clockAt 10) "cart" "3 items" freshWorld).1).1
        = some "10000000000" ∧
    (NewSession.Delete RedisStore (clockAt 20) ["cart"]
        (NewSession.Set RedisStore (clockAt 10) "wish" "1 item"
          (NewSession.Set RedisStore (clockAt 10) "cart" "3 items" freshWorld).1).1).store
        (createKey ["session", "10000000000", "key", "cart"]) = none ∧
    (NewSession.Delete RedisStore (clockAt 20) ["cart"]
        (NewSession.Set RedisStore (clockAt 10) "wish" "1 item"
          (NewSession.Set RedisStore (clockAt 10) "cart" "3 items" freshWorld).1).1).store
        (createKey ["session", "10000000000", "keys"]) = some ("cart:wish", 86400) :=
  have h := Delete_effect NewSession (clockAt 20) ["cart"]
    (NewSession.Set RedisStore (clockAt 10) "wish" "1 item"
      (NewSession.Set RedisStore (clockAt 10) "cart" "3 items" freshWorld).1).1 "10000000000"
    (by decide)
  ⟨by decide, h.1 "cart" (by decide), h.2.2.1.trans (by decide)⟩

/-- C13. When no identifier token is present, `Delete(names...)` and
`Clear()` return the state they were given, for every list of names, clock
reading and store implementation: the store receives no call and the token is
not written. -/
theorem no_token_no_effect {σ : Type} (S : SessionStore σ) (s : Session) (now : Clock)
    (names : List String) (w : World σ) (h : Session.getSessionID w = none) :
    s.Delete S now names w = w ∧ s.Clear S now w = w := by
  have hd : ∀ ks, s.Delete S now ks w = w := by
    intro ks
    unfold Session.Delete
    rw [h]
  refine ⟨hd names, ?_⟩
  unfold Session.Clear Session.getStoredKeys
  simp only [h]
  exact hd []

/-- The statement of C13 at a store that logs its calls: the log and the
log of token writes stay empty. -/
theorem no_token_no_effect_witness :
    Session.getSessionID ({ store := (emptyClient, []), ctx := emptyContext } :
        World (Client × List StoreCall)) = none ∧
    NewSession.Delete recordingStore (clockAt 5) ["cart"]
        { store := (emptyClient, []), ctx := emptyContext }
      = { store := (emptyClient, []), ctx := emptyContext } ∧
    NewSession.Clear recordingStore (clockAt 5)
        { store := (emptyClient, []), ctx := emptyContext }
      = { store := (emptyClient, []), ctx := emptyContext } :=
  ⟨rfl, no_token_no_effect recordingStore NewSession (clockAt 5) ["cart"] _ rfl⟩

/-- C20. Over the store of `RedisStore`, whenever `Get(k)` returns the
no-session error or the timed-out error, the state after the call (store and
request context) is the state before it: the last-activity entry is not
refreshed and nothing of the stale session is deleted. -/
theorem failed_Get_changes_nothing (s : Session) (now : Clock) (k : String) (w : World Client)
    (h : (s.Get RedisStore now k w).2.2 = some "Failed to find session ID" ∨
      (s.Get RedisStore now k w).2.2 = some "Session has timed out") :
    (s.Get RedisStore now k w).1 = w := by
  unfold Session.Get at h ⊢
  cases hid : Session.getSessionID w with
  | none => rfl
  | some id =>
    rw [hid] at h
    simp only at h ⊢
    cases ht : (s.isTimedOut RedisStore now w).2 with
    | true =>
      simp only [if_true]
      exact isTimedOut_redis_fst s now w
    | false =>
      exfalso
      simp only [ht, Bool.false_eq_true, if_false, RedisStore_Get, Client.Get] at h
      revert h
      split <;> simp [ErrNotFound]

/-- The statement of C20 on the cart session, one second past its timeout. -/
theorem failed_Get_changes_nothing_witness :
    (NewSession.Get RedisStore (clockAt 3611) "cart"
        (NewSession.Set RedisStore (clockAt 10) "cart" "3 items" freshWorld).1).2.2
      = some "Session has timed out" ∧
    (NewSession.Get RedisStore (clockAt 3611) "cart"
        (NewSession.Set RedisStore (clockAt 10) "cart" "3 items" freshWorld).1).1
      = (NewSession.Set RedisStore (clockAt 10) "cart" "3 items" freshWorld).1 :=
  ⟨by decide, failed_Get_changes_nothing NewSession (clockAt 3611) "cart" _
    (Or.inr (by decide))⟩

/-! ## The client token -/

theorem isTimedOut_ctx {σ : Type} (s : Session) (S : SessionStore σ) (now : Clock)
    (w : World σ) : (s.isTimedOut S now w).1.ctx = w.ctx := by
  unfold Session.isTimedOut
  cases hid : Session.getSessionID w with
  | none => rfl
  | some id =>
    simp only
    split
    · rfl
    · split
      · rfl
      · split <;> rfl

theorem updateLastActivityTime_ctx {σ : Type} (s : Session) (S : SessionStore σ) (now : Clock)
    (w : World σ) : (s.updateLastActivityTime S now w).ctx = w.ctx := by
  unfold Session.updateLastActivityTime
  cases Session.getSessionID w <;> rfl

theorem updateStoredKeys_ctx {σ : Type} (s : Session) (S : SessionStore σ) (newKey : String)
    (w : World σ) : (s.updateStoredKeys S newKey w).ctx = w.ctx := by
  unfold Session.updateStoredKeys
  cases Session.getSessionID w with
  | none => rfl
  | some id =>
    simp only
    split <;> rfl

/-- The second half of `Set` does not touch the request context. -/
theorem Set_ctx {σ : Type} (s : Session) (S : SessionStore σ) (now : Clock) (key val : String)
    (w : World σ) :
    (s.Set S now key val w).1.ctx = (s.resolveSessionID S now w).1.ctx := by
  unfold Session.Set
  cases hr : (s.resolveSessionID S now w).2 with
  | none => simp only [hr]
  | some id =>
    simp only [hr]
    rw [updateStoredKeys_ctx, updateLastActivityTime_ctx]

/-- C14, as amended. `Set` writes the client token, with a lifetime equal to
the expiration window, exactly when it issues an identifier: with no token
present it makes that one write, and on a timed-out session it first writes
the empty token with lifetime -1 and then the new identifier. A `Set` on a
session that exists and is active leaves the request context untouched: it
makes no token write. This holds for every store implementation. -/
theorem Set_token_writes {σ : Type} (S : SessionStore σ) (s : Session) (now : Clock)
    (key val : String) (w : World σ) :
    (Session.getSessionID w = none →
      (s.Set S now key val w).1.ctx.written
        = w.ctx.written ++ [("GOSESSIONID", Itoa64 now.Nanoseconds, s.expiration)]) ∧
    (∀ o, Session.getSessionID w = some o → (s.isTimedOut S now w).2 = true →
      (s.Set S now key val w).1.ctx.written
        = w.ctx.written ++ [("GOSESSIONID", "", -1),
            ("GOSESSIONID", Itoa64 now.Nanoseconds, s.expiration)]) ∧
    (∀ id, Session.getSessionID w = some id → (s.isTimedOut S now w).2 = false →
      (s.Set S now key val w).1.ctx = w.ctx) := by
  refine ⟨?_, ?_, ?_⟩
  · intro h
    rw [Set_ctx, resolveSessionID_none s S now w h]
    rfl
  · intro o h ht
    have hid2 : Session.getSessionID (s.isTimedOut S now w).1 = some o := by
      unfold Session.getSessionID at h ⊢
      rw [isTimedOut_ctx, h]
    rw [Set_ctx, resolveSessionID_timedOut s S now w o h ht]
    simp only [Session.setSessionID, Session.removeSessionID, hid2, Context.SetSecureCookie,
      isTimedOut_ctx, List.append_assoc, List.cons_append, List.nil_append]
  · intro id h ht
    rw [Set_ctx, resolveSessionID_active s S now w id h ht, isTimedOut_ctx]

/-- The statement of C14 on the cart session: its first `Set` makes one
token write and a second `Set` ten seconds later makes none. -/
theorem Set_token_writes_witness :
    Session.getSessionID freshWorld = none ∧
    cartWorld.ctx.written = [("GOSESSIONID", Itoa64 (clockAt 10).Nanoseconds, 86400)] ∧
    Session.getSessionID cartWorld = some "10000000000" ∧
    (NewSession.isTimedOut RedisStore (clockAt 20) cartWorld).2 = false ∧
    (NewSession.Set RedisStore (clockAt 20) "cart" "1 item" cartWorld).1.ctx = cartWorld.ctx :=
  ⟨rfl,
    (Set_token_writes RedisStore NewSession (clockAt 10) "cart" "3 items" freshWorld).1 rfl,
    by decide, by decide,
    (Set_token_writes RedisStore NewSession (clockAt 20) "cart" "1 item" cartWorld).2.2
      "10000000000" (by decide) (by decide)⟩

/-- The statement of C14 fails as written: after the first `Set` of the cart
session and a second `Set` ten seconds later, on the then active session, the
log of token writes holds the one write of the first call only. -/
theorem Set_active_no_token_write_counterexample :
    (NewSession.isTimedOut RedisStore (clockAt 20) cartWorld).2 = false ∧
    cartWorld.ctx.written = [("GOSESSIONID", "10000000000", 86400)] ∧
    (NewSession.Set RedisStore (clockAt 20) "cart" "1 item" cartWorld).1.ctx.written
      = [("GOSESSIONID", "10000000000", 86400)] := by
  decide

/-! ## Expiry of store writes -/

/-- A property of the store state that every `Get`, every `Delete` and every
`Set` with the session's expiration keeps is kept by every operation of the
session: no operation calls the store's `Set` with another expiry. -/
theorem operations_preserve {σ : Type} (S : SessionStore σ) (s : Session) (P : σ → Prop)
    (hSet : ∀ st k v, P st → P (S.Set st k v s.expiration).1)
    (hGet : ∀ st k, P st → P (S.Get st k).1)
    (hDel : ∀ st ks, P st → P (S.Delete st ks))
    (now : Clock) (w : World σ) (hw : P w.store) :
    (∀ key val, P (s.Set S now key val w).1.store) ∧
    (∀ key, P (s.Get S now key w).1.store) ∧
    (∀ names, P (s.Delete S now names w).store) ∧
    P (s.Clear S now w).store := by
  have hTimed : ∀ w2 : World σ, P w2.store → P (s.isTimedOut S now w2).1.store := by
    intro w2 h2
    unfold Session.isTimedOut
    cases Session.getSessionID w2 with
    | none => exact h2
    | some id =>
      have := hGet w2.store (createKey ["session", id, "last"]) h2
      simp only
      split
      · exact this
      · split
        · exact this
        · split <;> exact this
  have hLast : ∀ w2 : World σ, P w2.store → P (s.updateLastActivityTime S now w2).store := by
    intro w2 h2
    unfold Session.updateLastActivityTime
    cases Session.getSessionID w2 with
    | none => exact h2
    | some id => exact hSet _ _ _ h2
  have hKeys : ∀ (w2 : World σ) (k : String), P w2.store →
      P (s.updateStoredKeys S k w2).store := by
    intro w2 k h2
    unfold Session.updateStoredKeys
    cases Session.getSessionID w2 with
    | none => exact h2
    | some id =>
      have := hGet w2.store (createKey ["session", id, "keys"]) h2
      simp only
      split
      · exact hSet _ _ _ this
      · exact hSet _ _ _ this
  have hSetID : ∀ (w2 : World σ) (id : String), P w2.store →
      P (s.setSessionID S now id w2).store := by
    intro w2 id h2
    unfold Session.setSessionID
    exact hSet _ _ _ (hSet _ _ _ h2)
  have hRemove : ∀ w2 : World σ, P w2.store → P (Session.removeSessionID S w2).store := by
    intro w2 h2
    unfold Session.removeSessionID
    cases Session.getSessionID w2 with
    | none => exact h2
    | some id => exact hDel _ _ h2
  have hResolve : P (s.resolveSessionID S now w).1.store := by
    unfold Session.resolveSessionID
    cases Session.getSessionID w with
    | none =>
      simp only [Session.generateSessionID, Bool.not_true, Bool.false_eq_true, if_false]
      exact hSetID _ _ hw
    | some id =>
      simp only [Session.generateSessionID, Bool.not_true, Bool.false_eq_true, if_false]
      split
      · exact hSetID _ _ (hRemove _ (hTimed _ hw))
      · exact hTimed _ hw
  have hDelete : ∀ (w2 : World σ) (names : List String), P w2.store →
      P (s.Delete S now names w2).store := by
    intro w2 names h2
    unfold Session.Delete
    cases Session.getSessionID w2 with
    | none => exact h2
    | some id =>
      simp only
      apply hDel
      split
      · exact hLast _ (hTimed _ h2)
      · exact hTimed _ h2
  refine ⟨?_, ?_, fun names => hDelete w names hw, ?_⟩
  · intro key val
    unfold Session.Set
    cases hr : (s.resolveSessionID S now w).2 with
    | none => simpa only [hr] using hResolve
    | some id =>
      simp only [hr]
      apply hKeys
      apply hLast
      exact hSet _ _ _ hResolve
  · intro key
    unfold Session.Get
    cases Session.getSessionID w with
    | none => exact hw
    | some id =>
      simp only
      split
      · exact hTimed _ hw
      · exact hGet _ _ (hLast _ (hTimed _ hw))
  · unfold Session.Clear
    apply hDelete
    unfold Session.getStoredKeys
    cases Session.getSessionID w with
    | none => exact hw
    | some id =>
      have := hGet w.store (createKey ["session", id, "keys"]) hw
      simp only
      split <;> exact this

/-- C15. Over a store that logs every call it receives, each of `Set`, `Get`,
`Delete` and `Clear` keeps the log free of store writes whose expiry differs
from the session's `expiration` field: every write an operation issues
(creation timestamp, last-activity timestamp, tracked key list, value entry)
passes that expiry. `NewSession` fixes it at 86400 seconds, with a timeout of
3600 seconds. -/
theorem uniform_expiration :
    (∀ (s : Session) (now : Clock) (w : World (Client × List StoreCall)),
      ttlUniform s.expiration w.store.2 →
      (∀ key val, ttlUniform s.expiration (s.Set recordingStore now key val w).1.store.2) ∧
      (∀ key, ttlUniform s.expiration (s.Get recordingStore now key w).1.store.2) ∧
      (∀ names, ttlUniform s.expiration (s.Delete recordingStore now names w).store.2) ∧
      ttlUniform s.expiration (s.Clear recordingStore now w).store.2) ∧
    NewSession.expiration = 86400 ∧ NewSession.timeout = 3600 := by
  refine ⟨?_, by decide, by decide⟩
  intro s now w hw
  apply operations_preserve recordingStore s (fun st => ttlUniform s.expiration st.2) ?_ ?_ ?_
    now w hw
  · intro st k v h key val exp hmem
    simp only [recordingStore, List.mem_append, List.mem_singleton, StoreCall.set.injEq] at hmem
    rcases hmem with hmem | ⟨-, -, he⟩
    · exact h key val exp hmem
    · exact he
  · intro st k h key val exp hmem
    simp only [recordingStore, List.mem_append, List.mem_singleton, reduceCtorEq,
      or_false] at hmem
    exact h key val exp hmem
  · intro st ks h key val exp hmem
    simp only [recordingStore, List.mem_append, List.mem_singleton, reduceCtorEq,
      or_false] at hmem
    exact h key val exp hmem

/-- The statement of C15 on the first `Set` of a session against an empty
store: the four kinds of entry are written, each with expiry 86400. -/
theorem uniform_expiration_witness :
    ttlUniform NewSession.expiration freshRecording.store.2 ∧
    (NewSession.Set recordingStore (clockAt 10) "cart" "3 items" freshRecording).1.store.2
      = [StoreCall.set "session:10000000000" "10" 86400,
         StoreCall.set "session:10000000000:last" "10" 86400,
         StoreCall.set "session:10000000000:key:cart" "3 items" 86400,
         StoreCall.set "session:10000000000:last" "10" 86400,
         StoreCall.get "session:10000000000:keys",
         StoreCall.set "session:10000000000:keys" "cart" 86400] ∧
    ttlUniform NewSession.expiration
      (NewSession.Set recordingStore (clockAt 10) "cart" "3 items" freshRecording).1.store.2 :=
  ⟨fun _ _ _ h => (nomatch h), by decide,
    ((uniform_expiration.1 NewSession (clockAt 10) freshRecording
      (fun _ _ _ h => (nomatch h))).1 "cart" "3 items")⟩

/-! ## Key namespacing -/

theorem intercalate_go_append (sep x y : String) (l : List String) :
    String.intercalate.go (x ++ y) sep l = x ++ String.intercalate.go y sep l := by
  induction l generalizing y with
  | nil => rfl
  | cons a rest ih =>
    simp only [String.intercalate.go]
    rw [← ih (y ++ sep ++ a)]
    simp only [String.append_assoc]

theorem createKey_cons (a b : String) (rest : List String) :
    createKey (a :: b :: rest) = a ++ ":" ++ createKey (b :: rest) := by
  simp only [createKey, Join, String.intercalate, String.intercalate.go]
  rw [intercalate_go_append]

/-- C16. `createKey` joins its arguments with a single ':' between
neighbours. For every identifier `id` and key name `name` the store keys are
the strings "session:" ++ id (creation timestamp), "session:" ++ id ++ ":last"
(last activity), "session:" ++ id ++ ":keys" (tracked key list) and
"session:" ++ id ++ ":key:" ++ name (value entry), and for a fixed `id` these
four kinds of key are pairwise distinct. The calls a first `Set` and a
following `Clear` make on a logging store use keys of exactly these forms. -/
theorem key_namespacing :
    (createKey [] = "" ∧ (∀ a, createKey [a] = a) ∧
      ∀ a b rest, createKey (a :: b :: rest) = a ++ ":" ++ createKey (b :: rest)) ∧
    (∀ id name : String,
      createKey ["session", id] = "session:" ++ id ∧
      createKey ["session", id, "last"] = "session:" ++ id ++ ":last" ∧
      createKey ["session", id, "keys"] = "session:" ++ id ++ ":keys" ∧
      createKey ["session", id, "key", name] = "session:" ++ id ++ ":key:" ++ name) ∧
    (∀ id name : String,
      createKey ["session", id] ≠ createKey ["session", id, "last"] ∧
      createKey ["session", id] ≠ createKey ["session", id, "keys"] ∧
      createKey ["session", id] ≠ createKey ["session", id, "key", name] ∧
      createKey ["session", id, "last"] ≠ createKey ["session", id, "keys"] ∧
      createKey ["session", id, "last"] ≠ createKey ["session", id, "key", name] ∧
      createKey ["session", id, "keys"] ≠ createKey ["session", id, "key", name]) ∧
    (NewSession.Clear recordingStore (clockAt 10)
        (NewSession.Set recordingStore (clockAt 10) "cart" "3 items" freshRecording).1).store.2
      = [StoreCall.set "session:10000000000" "10" 86400,
         StoreCall.set "session:10000000000:last" "10" 86400,
         StoreCall.set "session:10000000000:key:cart" "3 items" 86400,
         StoreCall.set "session:10000000000:last" "10" 86400,
         StoreCall.get "session:10000000000:keys",
         StoreCall.set "session:10000000000:keys" "cart" 86400,
         StoreCall.get "session:10000000000:keys",
         StoreCall.get "session:10000000000:last",
         StoreCall.set "session:10000000000:last" "10" 86400,
         StoreCall.delete ["session:10000000000:key:cart"]] := by
  refine ⟨⟨rfl, fun a => rfl, createKey_cons⟩, ?_, ?_, by decide⟩
  · intro id name
    refine ⟨?_, ?_, ?_, ?_⟩ <;> apply String.ext <;>
      simp [createKey_creation_data, createKey_last_data, createKey_keys_data,
        createKey_value_data, String.data_append]
  · intro id name
    exact ⟨creation_ne_last id, creation_ne_keys id, creation_ne_value id name,
      last_ne_keys id, last_ne_value id name, keys_ne_value id name⟩

/-! ## Entries of a replaced session and the creation timestamp -/

theorem creation_ne_creation_other (i j : String) (hne : i ≠ j) :
    createKey ["session", i] ≠ createKey ["session", j] := by
  intro h
  have := congrArg String.data h
  simp [createKey_creation_data] at this
  exact hne (String.ext_iff.mpr this)

theorem keys_ne_keys_other (i j : String) (hne : i ≠ j) :
    createKey ["session", i, "keys"] ≠ createKey ["session", j, "keys"] := by
  intro h
  have := congrArg String.data h
  simp [createKey_keys_data] at this
  exact hne (String.ext_iff.mpr this)

theorem creation_ne_keys_other (i j : String) (hi : ':' ∉ i.data) :
    createKey ["session", i] ≠ createKey ["session", j, "keys"] := by
  intro h
  have := congrArg String.data h
  simp [createKey_creation_data, createKey_keys_data] at this
  rw [this] at hi
  simp at hi

/-- The state the if/else chain of `Set` leaves over the store of
`RedisStore` when it replaces a timed-out session. -/
theorem resolveSessionID_redis_timedOut (s : Session) (now : Clock) (w : World Client)
    (o : String) (hid : Session.getSessionID w = some o)
    (ht : (s.isTimedOut RedisStore now w).2 = true) :
    (s.resolveSessionID RedisStore now w).2 = some (Itoa64 now.Nanoseconds) ∧
    (s.resolveSessionID RedisStore now w).1.store
      = fun k =>
          if k = createKey ["session", Itoa64 now.Nanoseconds, "last"] then
            some (Itoa64 now.Seconds, s.expiration)
          else if k = createKey ["session", Itoa64 now.Nanoseconds] then
            some (Itoa64 now.Seconds, s.expiration)
          else if k ∈ [createKey ["session", o], createKey ["session", o, "last"]] then none
          else w.store k := by
  rw [resolveSessionID_timedOut s RedisStore now w o hid ht, isTimedOut_redis_fst]
  refine ⟨rfl, ?_⟩
  rw [setSessionID_redis_store]
  simp only [Session.removeSessionID, hid, RedisStore_Delete]

/-- C18, as amended. When `Set` runs on a timed-out session whose identifier
`o` has no colon and differs from the identifier the call issues, the
creation entry and the last-activity entry of `o` are deleted, so neither is
present in the store after the call; the tracked key list of `o` and its
value entries are left as they were. -/
theorem Set_removes_old_session (now : Clock) (key val : String) (w : World Client)
    (o : String) (hid : Session.getSessionID w = some o) (ho : ':' ∉ o.data)
    (hne : o ≠ Itoa64 now.Nanoseconds)
    (ht : (NewSession.isTimedOut RedisStore now w).2 = true) :
    (NewSession.Set RedisStore now key val w).1.store (createKey ["session", o]) = none ∧
    (NewSession.Set RedisStore now key val w).1.store (createKey ["session", o, "last"])
      = none ∧
    (NewSession.Set RedisStore now key val w).1.store (createKey ["session", o, "keys"])
      = w.store (createKey ["session", o, "keys"]) ∧
    (∀ name,
      (NewSession.Set RedisStore now key val w).1.store (createKey ["session", o, "key", name])
        = w.store (createKey ["session", o, "key", name])) := by
  have hn := Itoa64_no_colon now.Nanoseconds
  obtain ⟨hr, hstore⟩ := resolveSessionID_redis_timedOut NewSession now w o hid ht
  have hid2 : Session.getSessionID (NewSession.resolveSessionID RedisStore now w).1
      = some (Itoa64 now.Nanoseconds) := by
    rw [resolveSessionID_timedOut NewSession RedisStore now w o hid ht]
    exact getSessionID_setSessionID NewSession RedisStore now _ _ (by decide)
  obtain ⟨-, -, -, hframe⟩ := Set_redis_post NewSession now key val w _ hr hid2
  have hne2 : Itoa64 now.Nanoseconds ≠ o := fun h => hne h.symm
  refine ⟨?_, ?_, ?_, ?_⟩
  · rw [hframe _ (creation_ne_value_other o _ key ho) (creation_ne_last_other o _ ho)
      (creation_ne_keys_other o _ ho), hstore]
    simp only [creation_ne_last_other o _ ho, creation_ne_creation_other o _ hne, if_false,
      List.mem_cons, true_or, if_true]
  · rw [hframe _ (last_ne_value_other o _ key ho hn) (last_ne_last_other o _ hne)
      (keys_ne_last_other _ o hn ho).symm, hstore]
    simp only [last_ne_last_other o _ hne, (creation_ne_last_other _ o hn).symm, if_false,
      List.mem_cons, or_true, true_or, if_true]
  · rw [hframe _ (keys_ne_value_other o _ key ho hn) (keys_ne_last_other o _ ho hn)
      (keys_ne_keys_other o _ hne), hstore]
    simp only [keys_ne_last_other o _ ho hn, (creation_ne_keys_other _ o hn).symm, if_false,
      List.mem_cons, (creation_ne_keys o).symm, (last_ne_keys o).symm, List.mem_nil_iff,
      or_self]
  · intro name
    rw [hframe _ (value_ne_value_other o _ name key ho hn hne)
      (value_ne_last_other o _ name ho hn) (keys_ne_value_other _ o name hn ho).symm, hstore]
    simp only [value_ne_last_other o _ name ho hn, (creation_ne_value_other _ o name hn).symm,
      if_false, List.mem_cons, (creation_ne_value o name).symm, (last_ne_value o name).symm,
      List.mem_nil_iff, or_self]

/-- The statement of C18 on the cart session, replaced one second past its
timeout. -/
theorem Set_removes_old_session_witness :
    Session.getSessionID cartWorld = some "10000000000" ∧
    (NewSession.isTimedOut RedisStore (clockAt 3611) cartWorld).2 = true ∧
    (NewSession.Set RedisStore (clockAt 3611) "cart" "1 item" cartWorld).1.store
        (createKey ["session", "10000000000"]) = none ∧
    (NewSession.Set RedisStore (clockAt 3611) "cart" "1 item" cartWorld).1.store
        (createKey ["session", "10000000000", "last"]) = none :=
  have h := Set_removes_old_session (clockAt 3611) "cart" "1 item" cartWorld "10000000000"
    (by decide) (by decide) (by decide) (by decide)
  ⟨by decide, by decide, h.1, h.2.1⟩

/-- The statement of C18 fails as written: after the cart session is
replaced, one second past its timeout, the store still holds the old
session's value entry and its tracked key list. -/
theorem Set_keeps_old_values_counterexample :
    Session.getSessionID cartWorld = some "10000000000" ∧
    (NewSession.isTimedOut RedisStore (clockAt 3611) cartWorld).2 = true ∧
    Session.getSessionID (NewSession.Set RedisStore (clockAt 3611) "cart" "1 item" cartWorld).1
      = some "3611000000000" ∧
    (NewSession.Set RedisStore (clockAt 3611) "cart" "1 item" cartWorld).1.store
        "session:10000000000:key:cart" = some ("3 items", 86400) ∧
    (NewSession.Set RedisStore (clockAt 3611) "cart" "1 item" cartWorld).1.store
        "session:10000000000:keys" = some ("cart", 86400) := by
  decide

/-- C19. Over the store of `RedisStore`, for a session with identifier `id`:
`Get`, `Delete` and `Clear`, with any arguments, leave the creation entry
`session:<id>` unchanged, and so does `Set` on the active session. A `Set`
that issues an identifier (no token, or a timed-out session) writes the
creation entry of the new identifier with the current time in seconds. -/
theorem creation_write_once (now : Clock) (w : World Client) :
    (∀ id, Session.getSessionID w = some id →
      ((NewSession.isTimedOut RedisStore now w).2 = false → ∀ key val,
        (NewSession.Set RedisStore now key val w).1.store (createKey ["session", id])
          = w.store (createKey ["session", id])) ∧
      (∀ key, (NewSession.Get RedisStore now key w).1.store (createKey ["session", id])
          = w.store (createKey ["session", id])) ∧
      (∀ names, (NewSession.Delete RedisStore now names w).store (createKey ["session", id])
          = w.store (createKey ["session", id])) ∧
      (NewSession.Clear RedisStore now w).store (createKey ["session", id])
          = w.store (createKey ["session", id])) ∧
    ((Session.getSessionID w = none ∨ (NewSession.isTimedOut RedisStore now w).2 = true) →
      ∀ key val,
        (NewSession.Set RedisStore now key val w).1.store
            (createKey ["session", Itoa64 now.Nanoseconds])
          = some (Itoa64 now.Seconds, NewSession.expiration)) := by
  constructor
  · intro id hid
    have hdel : ∀ names,
        (NewSession.Delete RedisStore now names w).store (createKey ["session", id])
          = w.store (createKey ["session", id]) := by
      intro names
      rw [Delete_redis NewSession now names w id hid]
      simp only [creation_not_mem_values, if_false, creation_ne_last, ite_self]
    refine ⟨?_, ?_, hdel, ?_⟩
    · intro ht key val
      have hres := resolveSessionID_active NewSession RedisStore now w id hid ht
      rw [isTimedOut_redis_fst] at hres
      have hr : (NewSession.resolveSessionID RedisStore now w).2 = some id := by rw [hres]
      have hid2 : Session.getSessionID (NewSession.resolveSessionID RedisStore now w).1
          = some id := by rw [hres]; exact hid
      obtain ⟨-, -, -, hframe⟩ := Set_redis_post NewSession now key val w id hr hid2
      rw [hframe _ (creation_ne_value id key) (creation_ne_last id) (creation_ne_keys id), hres]
    · intro key
      unfold Session.Get
      simp only [hid, isTimedOut_redis_fst]
      split
      · rfl
      · simp only [Session.updateLastActivityTime, hid, RedisStore_Set, RedisStore_Get,
          creation_ne_last, if_false]
    · unfold Session.Clear
      simp only [getStoredKeys_redis_fst]
      exact hdel _
  · intro h key val
    have hres : (NewSession.resolveSessionID RedisStore now w).2
          = some (Itoa64 now.Nanoseconds) ∧
        Session.getSessionID (NewSession.resolveSessionID RedisStore now w).1
          = some (Itoa64 now.Nanoseconds) ∧
        (NewSession.resolveSessionID RedisStore now w).1.store
            (createKey ["session", Itoa64 now.Nanoseconds])
          = some (Itoa64 now.Seconds, NewSession.expiration) := by
      have hcases : ∃ w2, NewSession.resolveSessionID RedisStore now w
          = (NewSession.setSessionID RedisStore now (Itoa64 now.Nanoseconds) w2,
              some (Itoa64 now.Nanoseconds)) := by
        cases hw : Session.getSessionID w with
        | none => exact ⟨_, resolveSessionID_none NewSession RedisStore now w hw⟩
        | some o =>
          rcases h with h | h
          · rw [hw] at h
            exact absurd h (by simp)
          · exact ⟨_, resolveSessionID_timedOut NewSession RedisStore now w o hw h⟩
      obtain ⟨w2, hw2⟩ := hcases
      rw [hw2]
      refine ⟨rfl, getSessionID_setSessionID NewSession RedisStore now _ _ (by decide), ?_⟩
      rw [setSessionID_redis_store]
      simp only [creation_ne_last, if_false, if_true]
    obtain ⟨hr, hid2, hst⟩ := hres
    obtain ⟨-, -, -, hframe⟩ := Set_redis_post NewSession now key val w _ hr hid2
    rw [hframe _ (creation_ne_value _ key) (creation_ne_last _) (creation_ne_keys _), hst]

/-- The statement of C19 on the cart session: its first `Set` writes the
creation entry with second 10 and a `Set` ten seconds later leaves it. -/
theorem creation_write_once_witness :
    cartWorld.store (createKey ["session", Itoa64 (clockAt 10).Nanoseconds])
      = some (Itoa64 (clockAt 10).Seconds, NewSession.expiration) ∧
    Session.getSessionID cartWorld = some "10000000000" ∧
    (NewSession.isTimedOut RedisStore (clockAt 20) cartWorld).2 = false ∧
    (NewSession.Set RedisStore (clockAt 20) "cart" "1 item" cartWorld).1.store
        (createKey ["session", "10000000000"])
      = cartWorld.store (createKey ["session", "10000000000"]) :=
  ⟨(creation_write_once (clockAt 10) freshWorld).2 (Or.inl rfl) "cart" "3 items",
    by decide, by decide,
    ((creation_write_once (clockAt 20) cartWorld).1 "10000000000" (by decide)).1 (by decide)
      "cart" "1 item"⟩

/-! ## The tracked key list -/

theorem splitChars_ne_nil (sep : Char) (x : List Char) : splitChars sep x ≠ [] := by
  cases x with
  | nil => simp [splitChars]
  | cons c cs =>
    unfold splitChars
    split
    · simp
    · split <;> simp

/-- Splitting distributes over a separator in the middle. -/
theorem splitChars_append_sep (sep : Char) (x y : List Char) :
    splitChars sep (x ++ sep :: y) = splitChars sep x ++ splitChars sep y := by
  induction x with
  | nil => simp [splitChars]
  | cons c cs ih =>
    have ih2 : splitChars sep (cs.append (sep :: y))
        = splitChars sep cs ++ splitChars sep y := ih
    simp only [List.cons_append, splitChars]
    split
    · rw [ih2]
      rfl
    · rw [ih2]
      cases hcs : splitChars sep cs with
      | nil => exact absurd hcs (splitChars_ne_nil sep cs)
      | cons piece rest => rfl

theorem splitChars_no_sep (sep : Char) (x : List Char) (h : sep ∉ x) :
    splitChars sep x = [x] := by
  induction x with
  | nil => rfl
  | cons c cs ih =>
    simp only [List.mem_cons, not_or] at h
    have hc : ¬ c = sep := fun e => h.1 e.symm
    simp only [splitChars, hc, if_false, ih h.2]

theorem Split_append (L k : String) (hk : ':' ∉ k.data) :
    Split (L ++ ":" ++ k) ':' = Split L ':' ++ [k] := by
  unfold Split
  have hd : (L ++ ":" ++ k).data = L.data ++ ':' :: k.data := by
    simp [String.data_append]
  rw [hd, splitChars_append_sep, splitChars_no_sep ':' k.data hk]
  simp

theorem Split_no_colon (k : String) (hk : ':' ∉ k.data) : Split k ':' = [k] := by
  unfold Split
  rw [splitChars_no_sep ':' k.data hk]
  rfl

/-- The key list entry `Set` leaves over the store of `RedisStore`, given
the identifier its if/else chain settled on: the name alone when the chain
left no entry, the old list with the name appended otherwise. -/
theorem Set_redis_keys (s : Session) (now : Clock) (key val : String) (w : World Client)
    (id : String) (hr : (s.resolveSessionID RedisStore now w).2 = some id)
    (hid : Session.getSessionID (s.resolveSessionID RedisStore now w).1 = some id) :
    (s.Set RedisStore now key val w).1.store (createKey ["session", id, "keys"])
      = some ((match (s.resolveSessionID RedisStore now w).1.store
                (createKey ["session", id, "keys"]) with
              | none => key
              | some entry => entry.1 ++ ":" ++ key), s.expiration) := by
  have hid2 : (s.resolveSessionID RedisStore now w).1.ctx.GetSecureCookie "GOSESSIONID"
      = some id := hid
  have h2 := keys_ne_value id key
  have h3 := (last_ne_keys id).symm
  unfold Session.Set
  simp only [hr, Session.updateLastActivityTime, Session.updateStoredKeys, getSessionID_mk, hid2,
    RedisStore_Set, RedisStore_Get, Client.Get, h2, h3, if_false]
  cases (s.resolveSessionID RedisStore now w).1.store (createKey ["session", id, "keys"]) <;>
    simp

/-- The if/else chain of `Set` leaves the key list entry of the identifier
it settles on as it found it, when the identifier in the token, if any, has
no colon. -/
theorem resolveSessionID_redis_keys (now : Clock) (w : World Client)
    (hold : ∀ o, Session.getSessionID w = some o → ':' ∉ o.data) :
    ∃ id, (NewSession.resolveSessionID RedisStore now w).2 = some id ∧
      Session.getSessionID (NewSession.resolveSessionID RedisStore now w).1 = some id ∧
      (NewSession.resolveSessionID RedisStore now w).1.store (createKey ["session", id, "keys"])
        = w.store (createKey ["session", id, "keys"]) := by
  have hn := Itoa64_no_colon now.Nanoseconds
  cases hw : Session.getSessionID w with
  | none =>
    rw [resolveSessionID_none NewSession RedisStore now w hw]
    refine ⟨_, rfl, getSessionID_setSessionID NewSession RedisStore now _ _ (by decide), ?_⟩
    rw [setSessionID_redis_store]
    simp only [(last_ne_keys _).symm, (creation_ne_keys _).symm, if_false]
  | some o =>
    cases ht : (NewSession.isTimedOut RedisStore now w).2 with
    | true =>
      have ho := hold o hw
      obtain ⟨hr, hstore⟩ := resolveSessionID_redis_timedOut NewSession now w o hw ht
      refine ⟨_, hr, ?_, ?_⟩
      · rw [resolveSessionID_timedOut NewSession RedisStore now w o hw ht]
        exact getSessionID_setSessionID NewSession RedisStore now _ _ (by decide)
      · rw [hstore]
        simp only [(last_ne_keys _).symm, (creation_ne_keys _).symm, if_false, List.mem_cons,
          (creation_ne_keys_other o _ ho).symm, keys_ne_last_other _ o hn ho, List.mem_nil_iff,
          or_self]
    | false =>
      rw [resolveSessionID_active NewSession RedisStore now w o hw ht, isTimedOut_redis_fst]
      exact ⟨o, rfl, hw, rfl⟩

theorem getStoredKeys_redis_entry (w : World Client) (id L : String) (e : Int)
    (hid : Session.getSessionID w = some id)
    (hkeys : w.store (createKey ["session", id, "keys"]) = some (L, e)) :
    (Session.getStoredKeys RedisStore w).2 = Split L ':' := by
  unfold Session.getStoredKeys
  simp only [hid, RedisStore_Get, Client.Get, hkeys]

/-! ## The passage of time -/

theorem NewSession_expiration : NewSession.expiration = 86400 := rfl

theorem getSessionID_elapse (w : World Client) (d : Int) :
    Session.getSessionID (w.elapse d)
      = if w.ctx.lifetime "GOSESSIONID" ≤ d then none else Session.getSessionID w := rfl

theorem lifetime_elapse (w : World Client) (d : Int) :
    (w.elapse d).ctx.lifetime "GOSESSIONID" = w.ctx.lifetime "GOSESSIONID" - d := rfl

/-- An entry that has more than `d` seconds left is still there `d` seconds
later, with `d` seconds less to live. -/
theorem store_elapse_alive (w : World Client) (d : Int) (k v : String) (e : Int)
    (h : w.store k = some (v, e)) (hd : d < e) : (w.elapse d).store k = some (v, e - d) := by
  have hnot : ¬ e ≤ d := by omega
  simp only [World.elapse, Client.elapse, h, hnot, if_false]

/-- An entry that has `d` seconds left or fewer is gone `d` seconds later. -/
theorem store_elapse_gone (w : World Client) (d : Int) (k v : String) (e : Int)
    (h : w.store k = some (v, e)) (hd : e ≤ d) : (w.elapse d).store k = none := by
  simp only [World.elapse, Client.elapse, h, hd, if_true]

theorem isTimedOut_redis_absent (s : Session) (now : Clock) (w : World Client) (id : String)
    (hid : Session.getSessionID w = some id)
    (hlast : w.store (createKey ["session", id, "last"]) = none) :
    (s.isTimedOut RedisStore now w).2 = true := by
  unfold Session.isTimedOut
  simp only [hid, RedisStore_Get, Client.Get, hlast]

theorem Get_redis_timedOut (s : Session) (now : Clock) (key : String) (w : World Client)
    (id : String) (hid : Session.getSessionID w = some id)
    (ht : (s.isTimedOut RedisStore now w).2 = true) :
    s.Get RedisStore now key w = (w, ("", some "Session has timed out")) := by
  unfold Session.Get
  simp only [hid, ht, if_true, isTimedOut_redis_fst]

/-- A `Set` that issues an identifier leaves the token with the full
expiration window to live. -/
theorem Set_lifetime_issued {σ : Type} (s : Session) (S : SessionStore σ) (now : Clock)
    (key val : String) (w : World σ)
    (h : Session.getSessionID w = none ∨ (s.isTimedOut S now w).2 = true) :
    (s.Set S now key val w).1.ctx.lifetime "GOSESSIONID" = s.expiration := by
  rw [Set_ctx]
  cases hw : Session.getSessionID w with
  | none =>
    rw [resolveSessionID_none s S now w hw]
    simp [Session.setSessionID, Context.SetSecureCookie]
  | some o =>
    rcases h with h | h
    · rw [hw] at h
      exact absurd h (by simp)
    · rw [resolveSessionID_timedOut s S now w o hw h]
      simp [Session.setSessionID, Context.SetSecureCookie]

/-- C4, as amended. After `Set(k, v)` at clock reading `t`, from any starting
state and with no operation in between, `Get(k)` at a clock reading more than
the timeout after `t` never returns `v`: it fails with the error "Session has
timed out" as long as the client token is still alive, and with the error
"Failed to find session ID" once the token has lapsed. A token written by
this `Set` (no token before, or a timed-out session) lives for the expiration
window, so the timed-out error is returned before `t + expiration` and the
no-session error from then on. -/
theorem Get_after_timeout_aged (t t2 : Clock) (k v : String) (w : World Client)
    (h : t.Seconds + NewSession.timeout < t2.Seconds) :
    (t2.Seconds - t.Seconds < (NewSession.Set RedisStore t k v w).1.ctx.lifetime "GOSESSIONID" →
      (NewSession.Get RedisStore t2 k
          ((NewSession.Set RedisStore t k v w).1.elapse (t2.Seconds - t.Seconds))).2
        = ("", some "Session has timed out")) ∧
    ((NewSession.Set RedisStore t k v w).1.ctx.lifetime "GOSESSIONID" ≤ t2.Seconds - t.Seconds →
      (NewSession.Get RedisStore t2 k
          ((NewSession.Set RedisStore t k v w).1.elapse (t2.Seconds - t.Seconds))).2
        = ("", some "Failed to find session ID")) ∧
    ((Session.getSessionID w = none ∨ (NewSession.isTimedOut RedisStore t w).2 = true) →
      (NewSession.Set RedisStore t k v w).1.ctx.lifetime "GOSESSIONID"
        = NewSession.expiration) := by
  obtain ⟨id, hr, hid⟩ := resolveSessionID_token NewSession RedisStore t w (by decide)
  obtain ⟨hctx, -, hlast, -⟩ := Set_redis_post NewSession t k v w id hr hid
  have htok : Session.getSessionID (NewSession.Set RedisStore t k v w).1 = some id := by
    unfold Session.getSessionID at hid ⊢
    rw [hctx, hid]
  refine ⟨?_, ?_, Set_lifetime_issued NewSession RedisStore t k v w⟩
  · intro halive
    have hnot : ¬ (NewSession.Set RedisStore t k v w).1.ctx.lifetime "GOSESSIONID"
        ≤ t2.Seconds - t.Seconds := by omega
    have htok2 : Session.getSessionID
        ((NewSession.Set RedisStore t k v w).1.elapse (t2.Seconds - t.Seconds)) = some id := by
      rw [getSessionID_elapse, if_neg hnot, htok]
    have hto : (NewSession.isTimedOut RedisStore t2
        ((NewSession.Set RedisStore t k v w).1.elapse (t2.Seconds - t.Seconds))).2 = true := by
      by_cases hd : NewSession.expiration ≤ t2.Seconds - t.Seconds
      · exact isTimedOut_redis_absent NewSession t2 _ id htok2
          (store_elapse_gone _ _ _ _ _ hlast hd)
      · rw [isTimedOut_redis_last t2 t _ id _ htok2
          (store_elapse_alive _ _ _ _ _ hlast (by omega))]
        simp [h]
    rw [Get_redis_timedOut NewSession t2 k _ id htok2 hto]
  · intro hgone
    have htok2 : Session.getSessionID
        ((NewSession.Set RedisStore t k v w).1.elapse (t2.Seconds - t.Seconds)) = none := by
      rw [getSessionID_elapse, if_pos hgone]
    unfold Session.Get
    rw [htok2]

/-- The statement of C4 on the cart session, one second past its timeout. -/
theorem Get_after_timeout_aged_witness :
    (NewSession.Get RedisStore (clockAt 3611) "cart"
        ((NewSession.Set RedisStore (clockAt 10) "cart" "3 items" freshWorld).1.elapse
          ((clockAt 3611).Seconds - (clockAt 10).Seconds))).2
      = ("", some "Session has timed out") :=
  (Get_after_timeout_aged (clockAt 10) (clockAt 3611) "cart" "3 items" freshWorld
    (by decide)).1 (by decide)

/-- The statement of C4 fails as written: `Set("cart", "3 items")` at second
10 issues the token with a lifetime of 86400 seconds, and `Get("cart")` at
second 86410, which is more than the timeout later, fails with the
no-session error, not with the timed-out error. -/
theorem Get_after_expiration_counterexample :
    (clockAt 10).Seconds + NewSession.timeout < (clockAt 86410).Seconds ∧
    (NewSession.Set RedisStore (clockAt 10) "cart" "3 items" freshWorld).1.ctx.written
      = [("GOSESSIONID", "10000000000", 86400)] ∧
    (NewSession.Get RedisStore (clockAt 86410) "cart"
        ((NewSession.Set RedisStore (clockAt 10) "cart" "3 items" freshWorld).1.elapse
          ((clockAt 86410).Seconds - (clockAt 10).Seconds))).2
      = ("", some "Failed to find session ID") := by
  decide

/-! ## Activity refresh with time passing -/

theorem run_active_ctx (id : String) (t now : Clock) (w : World Client) (e : Int) (c : Call)
    (hid : Session.getSessionID w = some id)
    (hlast : w.store (createKey ["session", id, "last"]) = some (Itoa64 t.Seconds, e))
    (hgap : now.Seconds ≤ t.Seconds + NewSession.timeout) :
    (NewSession.run RedisStore now c w).ctx = w.ctx := by
  have hnot : ¬ t.Seconds + NewSession.timeout < now.Seconds := by omega
  cases c with
  | get key => exact ((Get_redis now t key w id e hid hlast).2 hnot).2.1
  | set key val =>
    have hto : (NewSession.isTimedOut RedisStore now w).2 = false := by
      rw [isTimedOut_redis_last now t w id e hid hlast]
      simp [hnot]
    have hres := resolveSessionID_active NewSession RedisStore now w id hid hto
    unfold Session.run
    simp only
    rw [Set_ctx, hres, isTimedOut_ctx]

/-- A timed sequence on an active session whose calls come in clock order,
each no more than the timeout after the one before and all while the token
is alive, finds the session active at every call. -/
theorem staysActiveTimed_of_paced (id : String) (t0 : Clock) (limit : Int)
    (calls : List (Clock × Call)) :
    ∀ (t : Clock) (w : World Client),
      Session.getSessionID w = some id →
      w.store (createKey ["session", id, "last"])
        = some (Itoa64 t.Seconds, NewSession.expiration) →
      limit = w.ctx.lifetime "GOSESSIONID" + (t.Seconds - t0.Seconds) →
      NewSession.paced limit t0 t calls = true →
      NewSession.staysActiveTimed id t calls w := by
  induction calls with
  | nil => intro t w _ _ _ _; trivial
  | cons head rest ih =>
    obtain ⟨now, c⟩ := head
    intro t w hid hlast hlim hp
    simp only [Session.paced, Bool.and_eq_true, decide_eq_true_eq] at hp
    obtain ⟨⟨⟨hp1, hp2⟩, hp3⟩, hp4⟩ := hp
    have htm : NewSession.timeout = 3600 := rfl
    have hnot : ¬ w.ctx.lifetime "GOSESSIONID" ≤ now.Seconds - t.Seconds := by omega
    have hid2 : Session.getSessionID (w.elapse (now.Seconds - t.Seconds)) = some id := by
      rw [getSessionID_elapse, if_neg hnot, hid]
    have hlast2 := store_elapse_alive w (now.Seconds - t.Seconds) _ _ _ hlast
      (by rw [NewSession_expiration]; omega)
    obtain ⟨h1, h2, h3, h4⟩ := run_active id t now _ _ c hid2 hlast2 hp2
    have hctx := run_active_ctx id t now _ _ c hid2 hlast2 hp2
    refine ⟨hid2, h1, h2, ih now _ h3 h4 ?_ hp4⟩
    rw [hctx, lifetime_elapse, hlim]
    omega

/-- C6, as amended. After `Set` has created or resumed a session, from any
starting state, every sequence of `Get` and `Set` calls at non-decreasing
clock readings in which each call comes no more than the timeout after the
previous one, and all calls come while the client token is alive, finds the
session active at every call: the token keeps naming the same identifier,
`isTimedOut` is false, no `Get` fails with the timed-out or the no-session
error and no `Set` changes the identifier. The token is alive for the
seconds it had left after that first `Set`, which is the expiration window
when the `Set` issued the identifier; no later call on the active session
renews it. -/
theorem activity_refresh_aged (t0 : Clock) (k0 v0 : String) (w : World Client)
    (calls : List (Clock × Call))
    (h : NewSession.paced
      ((NewSession.Set RedisStore t0 k0 v0 w).1.ctx.lifetime "GOSESSIONID") t0 t0 calls
        = true) :
    (∃ id, Session.getSessionID (NewSession.Set RedisStore t0 k0 v0 w).1 = some id ∧
      NewSession.staysActiveTimed id t0 calls (NewSession.Set RedisStore t0 k0 v0 w).1) ∧
    ((Session.getSessionID w = none ∨ (NewSession.isTimedOut RedisStore t0 w).2 = true) →
      (NewSession.Set RedisStore t0 k0 v0 w).1.ctx.lifetime "GOSESSIONID"
        = NewSession.expiration) := by
  obtain ⟨id, hr, hid⟩ := resolveSessionID_token NewSession RedisStore t0 w (by decide)
  obtain ⟨hctx, -, hlast, -⟩ := Set_redis_post NewSession t0 k0 v0 w id hr hid
  have htok : Session.getSessionID (NewSession.Set RedisStore t0 k0 v0 w).1 = some id := by
    unfold Session.getSessionID at hid ⊢
    rw [hctx, hid]
  exact ⟨⟨id, htok, staysActiveTimed_of_paced id t0 _ calls t0 _ htok hlast (by omega) h⟩,
    Set_lifetime_issued NewSession RedisStore t0 k0 v0 w⟩

/-- The statement of C6 on the first 23 hourly `Get` calls of the cart
session, the last of which comes 82800 seconds after the `Set`. -/
theorem activity_refresh_aged_witness :
    NewSession.paced
      ((NewSession.Set RedisStore (clockAt 10) "cart" "3 items" freshWorld).1.ctx.lifetime
        "GOSESSIONID") (clockAt 10) (clockAt 10) (hourlyGets.take 23) = true ∧
    ∃ id, Session.getSessionID
        (NewSession.Set RedisStore (clockAt 10) "cart" "3 items" freshWorld).1 = some id ∧
      NewSession.staysActiveTimed id (clockAt 10) (hourlyGets.take 23)
        (NewSession.Set RedisStore (clockAt 10) "cart" "3 items" freshWorld).1 :=
  ⟨by decide,
    (activity_refresh_aged (clockAt 10) "cart" "3 items" freshWorld (hourlyGets.take 23)
      (by decide)).1⟩

set_option maxRecDepth 100000 in
/-- The statement of C6 fails as written: the hourly `Get` calls of the cart
session each come exactly one timeout after the one before, yet the 24th, at
second 86410, fails with the no-session error: the token was written once,
by the `Set` at second 10, with a lifetime of 86400 seconds. -/
theorem activity_refresh_counterexample :
    NewSession.withinTimeout (clockAt 10) hourlyGets = true ∧
    (NewSession.runTimed (clockAt 10) (hourlyGets.take 23) cartWorld).ctx.written
      = [("GOSESSIONID", "10000000000", 86400)] ∧
    (NewSession.Get RedisStore (clockAt 86410) "cart"
        ((NewSession.runTimed (clockAt 10) (hourlyGets.take 23) cartWorld).elapse 3600)).2
      = ("", some "Failed to find session ID") := by
  decide

/-! ## Clear twice -/

/-- C8, as amended. Over the store of `RedisStore`, for every state: a second
`Clear()` at the same clock reading as the first changes nothing, store and
request context are exactly as the first `Clear()` left them. A second
`Clear()` at another clock reading leaves the request context and every store
entry other than the last-activity entry `session:<id>:last` as the first
left them (and changes nothing at all when no token is present); the
last-activity entry of an active session is set again, to the seconds of the
second call. -/
theorem Clear_twice :
    (∀ (now : Clock) (w : World Client),
      NewSession.Clear RedisStore now (NewSession.Clear RedisStore now w)
        = NewSession.Clear RedisStore now w) ∧
    (∀ (now now2 : Clock) (w : World Client),
      (NewSession.Clear RedisStore now2 (NewSession.Clear RedisStore now w)).ctx
        = (NewSession.Clear RedisStore now w).ctx ∧
      (Session.getSessionID w = none →
        NewSession.Clear RedisStore now2 (NewSession.Clear RedisStore now w)
          = NewSession.Clear RedisStore now w) ∧
      (∀ id, Session.getSessionID w = some id →
        (∀ κ, κ ≠ createKey ["session", id, "last"] →
          (NewSession.Clear RedisStore now2 (NewSession.Clear RedisStore now w)).store κ
            = (NewSession.Clear RedisStore now w).store κ) ∧
        ((NewSession.isTimedOut RedisStore now2 (NewSession.Clear RedisStore now w)).2
            = false →
          (NewSession.Clear RedisStore now2 (NewSession.Clear RedisStore now w)).store
              (createKey ["session", id, "last"])
            = some (Itoa64 now2.Seconds, NewSession.expiration)))) := by
  refine ⟨Clear_same_clock, ?_⟩
  intro now now2 w
  have hclear : ∀ (t : Clock) (w2 : World Client), NewSession.Clear RedisStore t w2
      = NewSession.Delete RedisStore t (Session.getStoredKeys RedisStore w2).2 w2 := by
    intro t w2
    unfold Session.Clear
    simp only [getStoredKeys_redis_fst]
  cases hid : Session.getSessionID w with
  | none =>
    have h0 : ∀ t, NewSession.Clear RedisStore t w = w := by
      intro t
      rw [hclear]
      unfold Session.Delete
      simp [hid]
    rw [h0 now, h0 now2]
    exact ⟨rfl, fun _ => rfl, fun id h => absurd h (by simp)⟩
  | some id =>
    have hfirst := Delete_redis NewSession now (Session.getStoredKeys RedisStore w).2 w id hid
    have hid2 : Session.getSessionID (NewSession.Clear RedisStore now w) = some id := by
      rw [hclear, hfirst]
      exact hid
    have hkeys : (NewSession.Clear RedisStore now w).store (createKey ["session", id, "keys"])
        = w.store (createKey ["session", id, "keys"]) := by
      rw [hclear, hfirst]
      simp only [keys_not_mem_values, if_false, (last_ne_keys id).symm, ite_self]
    have hlist := getStoredKeys_redis_congr _ _ id hid2 hid hkeys
    have hsecond := Delete_redis NewSession now2
      (Session.getStoredKeys RedisStore (NewSession.Clear RedisStore now w)).2
      (NewSession.Clear RedisStore now w) id hid2
    rw [← hclear now2, hlist] at hsecond
    refine ⟨?_, fun h => absurd h (by simp), ?_⟩
    · rw [hsecond]
    · intro id2 hid3
      have hidd : id = id2 := Option.some.inj hid3
      subst hidd
      constructor
      · intro κ hκ
        rw [hsecond]
        simp only [hκ, if_false, ite_self]
        split
        · rename_i hmem
          rw [hclear, hfirst]
          simp only [hmem, if_true]
        · rfl
      · intro ht
        rw [hsecond]
        simp only [last_not_mem_values, if_false, ht, Bool.false_eq_true, if_true]

/-- The statement of C8 on the cart session: `Clear()` at second 20 and
again at second 21. -/
theorem Clear_twice_witness :
    Session.getSessionID cartWorld = some "10000000000" ∧
    (NewSession.Clear RedisStore (clockAt 21)
        (NewSession.Clear RedisStore (clockAt 20) cartWorld)).store
        (createKey ["session", "10000000000", "key", "cart"])
      = (NewSession.Clear RedisStore (clockAt 20) cartWorld).store
        (createKey ["session", "10000000000", "key", "cart"]) ∧
    (NewSession.Clear RedisStore (clockAt 21)
        (NewSession.Clear RedisStore (clockAt 20) cartWorld)).store
        (createKey ["session", "10000000000", "last"])
      = some (Itoa64 (clockAt 21).Seconds, NewSession.expiration) :=
  have h := (Clear_twice.2 (clockAt 20) (clockAt 21) cartWorld).2.2 "10000000000" (by decide)
  ⟨by decide, h.1 _ (by decide), h.2 (by decide)⟩

/-- The statement of C8 fails as written: on the active cart session a
`Clear()` at second 20 leaves the last-activity entry "20", and a second
`Clear()` one second later changes it to "21". -/
theorem Clear_later_counterexample :
    (NewSession.Clear RedisStore (clockAt 20) cartWorld).store "session:10000000000:last"
      = some ("20", 86400) ∧
    (NewSession.Clear RedisStore (clockAt 21)
        (NewSession.Clear RedisStore (clockAt 20) cartWorld)).store "session:10000000000:last"
      = some ("21", 86400) := by
  decide

/-! ## The tracked key list over a session's life -/

/-- A timed sequence of `Set` calls on an active session, in clock order,
each no more than the timeout after the one before and all while the token
is alive, appends the key names to the tracked list in call order. -/
theorem runTimed_sets_keys (id : String) (t0 : Clock) (limit : Int)
    (rest : List (Clock × String × String)) :
    ∀ (t : Clock) (w : World Client) (L : String),
      Session.getSessionID w = some id →
      w.store (createKey ["session", id, "last"])
        = some (Itoa64 t.Seconds, NewSession.expiration) →
      w.store (createKey ["session", id, "keys"]) = some (L, NewSession.expiration) →
      limit = w.ctx.lifetime "GOSESSIONID" + (t.Seconds - t0.Seconds) →
      NewSession.paced limit t0 t (setCalls rest) = true →
      (∀ x ∈ rest, ':' ∉ x.2.1.data) →
      (Session.getStoredKeys RedisStore (NewSession.runTimed t (setCalls rest) w)).2
        = Split L ':' ++ rest.map (fun x => x.2.1) := by
  induction rest with
  | nil =>
    intro t w L hid _ hkeys _ _ _
    simp only [setCalls, List.map_nil, Session.runTimed, List.append_nil]
    exact getStoredKeys_redis_entry w id L _ hid hkeys
  | cons head tail ih =>
    obtain ⟨now, k, v⟩ := head
    intro t w L hid hlast hkeys hlim hp hfree
    simp only [setCalls, List.map_cons, Session.paced, Bool.and_eq_true,
      decide_eq_true_eq] at hp
    obtain ⟨⟨⟨hp1, hp2⟩, hp3⟩, hp4⟩ := hp
    have htm : NewSession.timeout = 3600 := rfl
    have hnotl : ¬ w.ctx.lifetime "GOSESSIONID" ≤ now.Seconds - t.Seconds := by omega
    have hid1 : Session.getSessionID (w.elapse (now.Seconds - t.Seconds)) = some id := by
      rw [getSessionID_elapse, if_neg hnotl, hid]
    have hlast1 := store_elapse_alive w (now.Seconds - t.Seconds) _ _ _ hlast
      (by rw [NewSession_expiration]; omega)
    have hkeys1 := store_elapse_alive w (now.Seconds - t.Seconds) _ _ _ hkeys
      (by rw [NewSession_expiration]; omega)
    have hnot : ¬ t.Seconds + NewSession.timeout < now.Seconds := by omega
    have hto : (NewSession.isTimedOut RedisStore now (w.elapse (now.Seconds - t.Seconds))).2
        = false := by
      rw [isTimedOut_redis_last now t _ id _ hid1 hlast1]
      simp [hnot]
    have hres := resolveSessionID_active NewSession RedisStore now _ id hid1 hto
    rw [isTimedOut_redis_fst] at hres
    have hr : (NewSession.resolveSessionID RedisStore now
        (w.elapse (now.Seconds - t.Seconds))).2 = some id := by rw [hres]
    have hid2 : Session.getSessionID (NewSession.resolveSessionID RedisStore now
        (w.elapse (now.Seconds - t.Seconds))).1 = some id := by rw [hres]; exact hid1
    obtain ⟨hctx, -, hl, -⟩ := Set_redis_post NewSession now k v _ id hr hid2
    have hk := Set_redis_keys NewSession now k v _ id hr hid2
    rw [hres] at hk hctx
    simp only [hkeys1] at hk
    have htok : Session.getSessionID
        (NewSession.Set RedisStore now k v (w.elapse (now.Seconds - t.Seconds))).1
          = some id := by
      unfold Session.getSessionID at hid1 ⊢
      rw [hctx, hid1]
    have hkfree : ':' ∉ k.data := hfree (now, k, v) (List.mem_cons_self _ _)
    have hlim2 : limit
        = (NewSession.Set RedisStore now k v (w.elapse (now.Seconds - t.Seconds))).1.ctx.lifetime
            "GOSESSIONID" + (now.Seconds - t0.Seconds) := by
      rw [hctx, lifetime_elapse, hlim]
      omega
    have := ih now _ (L ++ ":" ++ k) htok hl hk hlim2 hp4
      (fun x hx => hfree x (List.mem_cons_of_mem _ hx))
    simp only [setCalls, List.map_cons, Session.runTimed, Session.run] at this ⊢
    rw [this, Split_append L k hkfree]
    simp

/-- C17, as amended. Over the store of `RedisStore`, when the identifier in
the token, if any, has no colon: `Set(name, v)` leaves in the tracked key
list of the identifier it runs under (the one in the token when it returns)
the string `name` if that entry was absent before the call, and
`L ++ ":" ++ name` if it held `L`; the entry of a newly issued identifier is
absent only if the store holds no key list under that identifier already.
Hence after `Set(k1, _)`, ..., `Set(kn, _)` with colon-free names in one
fresh session (no token and no key list under the identifier issued; calls in
clock order, each no more than the timeout after the one before and all
within the expiration window of the first) `getStoredKeys` returns
`[k1, ..., kn]` in call order, duplicates included. -/
theorem tracked_keys_on_Set :
    (∀ (now : Clock) (name v : String) (w : World Client),
      (∀ o, Session.getSessionID w = some o → ':' ∉ o.data) →
      ∃ id, Session.getSessionID (NewSession.Set RedisStore now name v w).1 = some id ∧
        (w.store (createKey ["session", id, "keys"]) = none →
          (NewSession.Set RedisStore now name v w).1.store (createKey ["session", id, "keys"])
            = some (name, NewSession.expiration)) ∧
        (∀ L e, w.store (createKey ["session", id, "keys"]) = some (L, e) →
          (NewSession.Set RedisStore now name v w).1.store (createKey ["session", id, "keys"])
            = some (L ++ ":" ++ name, NewSession.expiration))) ∧
    (∀ (t1 : Clock) (k1 v1 : String) (rest : List (Clock × String × String))
      (w : World Client),
      Session.getSessionID w = none →
      w.store (createKey ["session", Itoa64 t1.Nanoseconds, "keys"]) = none →
      NewSession.paced NewSession.expiration t1 t1 (setCalls rest) = true →
      ':' ∉ k1.data → (∀ x ∈ rest, ':' ∉ x.2.1.data) →
      (Session.getStoredKeys RedisStore
          (NewSession.runTimed t1 (setCalls rest)
            (NewSession.Set RedisStore t1 k1 v1 w).1)).2
        = k1 :: rest.map (fun x => x.2.1)) := by
  have partA : ∀ (now : Clock) (name v : String) (w : World Client),
      (∀ o, Session.getSessionID w = some o → ':' ∉ o.data) →
      ∃ id, (NewSession.resolveSessionID RedisStore now w).2 = some id ∧
        Session.getSessionID (NewSession.Set RedisStore now name v w).1 = some id ∧
        (NewSession.Set RedisStore now name v w).1.store (createKey ["session", id, "last"])
          = some (Itoa64 now.Seconds, NewSession.expiration) ∧
        (w.store (createKey ["session", id, "keys"]) = none →
          (NewSession.Set RedisStore now name v w).1.store (createKey ["session", id, "keys"])
            = some (name, NewSession.expiration)) ∧
        (∀ L e, w.store (createKey ["session", id, "keys"]) = some (L, e) →
          (NewSession.Set RedisStore now name v w).1.store (createKey ["session", id, "keys"])
            = some (L ++ ":" ++ name, NewSession.expiration)) := by
    intro now name v w hold
    obtain ⟨id, hr, hid, hst⟩ := resolveSessionID_redis_keys now w hold
    obtain ⟨hctx, -, hl, -⟩ := Set_redis_post NewSession now name v w id hr hid
    have hk := Set_redis_keys NewSession now name v w id hr hid
    rw [hst] at hk
    refine ⟨id, hr, ?_, hl, ?_, ?_⟩
    · unfold Session.getSessionID at hid ⊢
      rw [hctx, hid]
    · intro h0
      rw [hk, h0]
    · intro L e h0
      rw [hk, h0]
  constructor
  · intro now name v w hold
    obtain ⟨id, -, h1, -, h2, h3⟩ := partA now name v w hold
    exact ⟨id, h1, h2, h3⟩
  · intro t1 k1 v1 rest w hnone hfresh hp hk1 hfree
    obtain ⟨id, hr, h1, hl, h2, -⟩ := partA t1 k1 v1 w
      (fun o ho => by rw [hnone] at ho; exact absurd ho (by simp))
    rw [resolveSessionID_none NewSession RedisStore t1 w hnone] at hr
    have hidn : Itoa64 t1.Nanoseconds = id := Option.some.inj hr
    subst hidn
    have hlife := Set_lifetime_issued NewSession RedisStore t1 k1 v1 w (Or.inl hnone)
    rw [runTimed_sets_keys _ t1 NewSession.expiration rest t1 _ k1 h1 hl (h2 hfresh)
      (by rw [hlife]; omega) hp hfree, Split_no_colon k1 hk1]
    rfl

/-- The statement of C17 on a fresh session that sets "cart", "wish" and
"cart" again, ten seconds apart. -/
theorem tracked_keys_on_Set_witness :
    Session.getSessionID freshWorld = none ∧
    NewSession.paced NewSession.expiration (clockAt 10) (clockAt 10)
      (setCalls [(clockAt 20, "wish", "1 item"), (clockAt 30, "cart", "2 items")]) = true ∧
    (Session.getStoredKeys RedisStore
        (NewSession.runTimed (clockAt 10)
          (setCalls [(clockAt 20, "wish", "1 item"), (clockAt 30, "cart", "2 items")])
          (NewSession.Set RedisStore (clockAt 10) "cart" "3 items" freshWorld).1)).2
      = ["cart", "wish", "cart"] :=
  ⟨rfl, by decide,
    tracked_keys_on_Set.2 (clockAt 10) "cart" "3 items"
      [(clockAt 20, "wish", "1 item"), (clockAt 30, "cart", "2 items")] freshWorld
      rfl rfl (by decide) (by decide) (by decide)⟩

/-- The statement of C17 fails as written: with no token, `Set("cart", _)` at
second 10 creates the identifier "10000000000", yet the store already holds
the key list "old" under that identifier, and the list is "old:cart"
afterwards, not "cart". -/
theorem stale_key_list_counterexample :
    Session.getSessionID staleKeysWorld = none ∧
    Session.getSessionID (NewSession.Set RedisStore (clockAt 10) "cart" "3 items"
        staleKeysWorld).1 = some "10000000000" ∧
    (NewSession.Set RedisStore (clockAt 10) "cart" "3 items" staleKeysWorld).1.store
        "session:10000000000:keys" = some ("old:cart", 86400) := by
  decide

end Birdbrain
